import Mathlib

/-!
Verification of the `dns-sd` TypeScript repository (mDNS / DNS-SD):
a shallow embedding of its DNS wire codec (`src/decode/message_decode.ts`,
`src/decode/message_encode.ts`), the responder (`src/mdns/responder.ts`),
the continuous querier (`src/mdns/query.ts`) and the advertiser
(`src/dns_sd/advertise.ts`), together with theorems about them.

Modelling conventions:
* A JavaScript string is modelled as its list of UTF-16 code units
  (`JStr := List Nat`); all strings manipulated by this code are built
  from single byte values via `String.fromCharCode`, so one unit per byte.
* A `Uint8Array` is a `List Nat` of byte values; `DataView` reads that
  would throw a `RangeError` out of bounds are modelled with `Option`,
  plain `array[i]` indexing (which yields `undefined`) with a default.
* `setUintN` stores truncate modulo 2^N exactly as in JS.
* JS `Set`/`Map` object collections are modelled as lists in insertion
  order with structural equality standing in for object identity.
-/

namespace DnsSd

/-- A JavaScript string: its list of code units. -/
abbrev JStr := List Nat

/-- `String.fromCharCode`/`charCodeAt` round a value into 16 bits. -/
def u16 (n : Nat) : Nat := n % 65536

/-- `setUint8` truncation. -/
def u8 (n : Nat) : Nat := n % 256

/-- Split a 16-bit value into its two big-endian bytes (`setUint16`). -/
def u16Bytes (n : Nat) : List Nat := [n % 65536 / 256, n % 256]

/-- Split a 32-bit value into its four big-endian bytes (`setUint32`). -/
def u32Bytes (n : Nat) : List Nat :=
  [n % 4294967296 / 16777216, n % 16777216 / 65536, n % 65536 / 256, n % 256]

/-- `DataView.getUint8`: fails (throws) out of bounds. -/
def getU8 (m : List Nat) (i : Nat) : Option Nat := m.get? i

/-- `DataView.getUint16(_, false)`: big-endian, fails out of bounds. -/
def getU16 (m : List Nat) (i : Nat) : Option Nat := do
  let b0 ← m.get? i
  let b1 ← m.get? (i + 1)
  pure (b0 * 256 + b1)

/-- `DataView.getUint32(_, false)`: big-endian, fails out of bounds. -/
def getU32 (m : List Nat) (i : Nat) : Option Nat := do
  let b0 ← m.get? i
  let b1 ← m.get? (i + 1)
  let b2 ← m.get? (i + 2)
  let b3 ← m.get? (i + 3)
  pure (((b0 * 256 + b1) * 256 + b2) * 256 + b3)

/-- Plain `message[i]` indexing; out of range gives `undefined`, which the
only consumers (`String.fromCharCode`, byte stores) coerce to `0`. -/
def idx (m : List Nat) (i : Nat) : Nat := (m.get? i).getD 0

/-- `Uint8Array.subarray(s, e)` (clamping, never throwing). -/
def subarray (m : List Nat) (s e : Nat) : List Nat := (m.take e).drop s

/-- `toUpperCase` on a single code unit (ASCII case mapping; the labels
manipulated by this repository are byte strings). -/
def upperUnit (c : Nat) : Nat := if 97 ≤ c ∧ c ≤ 122 then c - 32 else c

/-- `toUpperCase` of a JS string. -/
def upper (s : JStr) : JStr := s.map upperUnit

/-- `array.join(".")` for a list of strings. -/
def joinDots (ls : List JStr) : JStr :=
  match ls with
  | [] => []
  | l :: rest => rest.foldl (fun acc s => acc ++ [46] ++ s) l

/-- `string.split(".")`. -/
def splitDots (s : JStr) : List JStr :=
  (s.splitOnP (· = 46))

/-- Decimal rendering of a number, as in template literals. -/
def decStr (n : Nat) : JStr := (Nat.toDigits 10 n).map Char.toNat

/-- `n.toString(16)` (lowercase hexadecimal). -/
def hexStr (n : Nat) : JStr := (Nat.toDigits 16 n).map Char.toNat

/-! ## Data model (`src/decode/types.ts`)

`RDATA` is a union of JS value shapes; the decoder for `A` records
produces an array of *strings* while `types.ts` declares `number[]`,
so both shapes get a constructor. -/

/-- A TXT attribute value: bytes, `true` (present, no value) or `null`
(present, empty value). -/
inductive TxtVal where
  | bytes (bs : List Nat)
  | isTrue
  | isNull
deriving DecidableEq, Repr

/-- The RDATA union. -/
inductive RData where
  /-- `A` as `number[]` (the shape used by the responder/advertiser). -/
  | aNums (quad : List Nat)
  /-- `A` as an array of decimal strings (the shape the decoder makes). -/
  | aStrs (quad : List JStr)
  /-- `PTR`: a label sequence. -/
  | labelSeq (ls : List JStr)
  /-- `TXT`: an insertion-ordered JS object of attributes. -/
  | txt (attrs : List (JStr × TxtVal))
  /-- `AAAA`: a formatted IPv6 string. -/
  | ipv6 (s : JStr)
  /-- `SRV`. -/
  | srv (priority weight port : Nat) (target : List JStr)
  /-- `NSEC`. -/
  | nsec (nextDomainName : List JStr) (types : List Nat)
  /-- Opaque bytes. -/
  | bytes (bs : List Nat)
deriving DecidableEq, Repr

/-- A resource record (`ResourceRecord` in `types.ts`).  Records produced
by the decoder carry no `isUnique` property; every consumer tests it for
truthiness, so a missing property is modelled as `false`. -/
structure ResourceRecord where
  NAME : List JStr
  TYPE : Nat
  CLASS : Nat
  TTL : Nat
  RDLENGTH : Nat
  RDATA : RData
  isUnique : Bool
deriving DecidableEq, Repr

/-- A question (`DnsQuestionSection`). -/
structure DnsQuestionSection where
  QNAME : List JStr
  QTYPE : Nat
  QCLASS : Nat
deriving DecidableEq, Repr

/-- The message header. -/
structure DnsMessageHeader where
  ID : Nat
  QR : Nat
  OPCODE : Nat
  AA : Nat
  TC : Nat
  RD : Nat
  RA : Nat
  Z : Nat
  AD : Nat
  CD : Nat
  RCODE : Nat
  QDCOUNT : Nat
  ANCOUNT : Nat
  NSCOUNT : Nat
  ARCOUNT : Nat
deriving DecidableEq, Repr

/-- A DNS message. -/
structure DnsMessage where
  header : DnsMessageHeader
  question : List DnsQuestionSection
  answer : List ResourceRecord
  authority : List ResourceRecord
  additional : List ResourceRecord
deriving DecidableEq, Repr

end DnsSd

namespace DnsSd

/-! ## Decoder (`src/decode/message_decode.ts`)

The decoder is total JS except for out-of-bounds `DataView` reads and
unbounded compression-pointer recursion; both are modelled with `Option`
(plus fuel for the recursion: a terminating JS run follows at most
`|m|` pointer jumps, each followed by a forward walk of at most `|m|`
steps, so quadratic fuel is enough). -/

/-- `decodeLabels`: read a label sequence at `pos`, following compression
pointers.  Returns the labels and the position just after the sequence. -/
def decodeLabels (m : List Nat) : Nat → Nat → Option (List JStr × Nat)
  | 0, _ => none
  | fuel + 1, pos => do
    let b ← getU8 m pos
    if b = 0 then
      pure ([], pos + 1)
    else if 192 ≤ b then
      let b2 ← getU8 m (pos + 1)
      let compressionPointer := b * 256 + b2 - 49152
      let (compressedLabels, _) ← decodeLabels m fuel compressionPointer
      pure (compressedLabels, pos + 2)
    else
      if m.length < pos + b then
        none
      else
        let label : JStr := (List.range b).map (fun k => idx m (pos + 1 + k))
        let (rest, np) ← decodeLabels m fuel (pos + 1 + b)
        pure (label :: rest, np)

/-- Fuel that dominates any terminating run of the JS `decodeLabels`. -/
def labelFuel (m : List Nat) : Nat := (m.length + 2) * (m.length + 2)

/-- `decodeHeader`. -/
def decodeHeader (m : List Nat) : Option DnsMessageHeader := do
  let id ← getU16 m 0
  let flags ← getU16 m 2
  let qdCount ← getU16 m 4
  let anCount ← getU16 m 6
  let nsCount ← getU16 m 8
  let arCount ← getU16 m 10
  pure {
    ID := id
    QR := flags / 32768 % 2
    OPCODE := flags / 2048 % 16
    AA := flags / 1024 % 2
    TC := flags / 512 % 2
    RD := flags / 256 % 2
    RA := flags / 128 % 2
    Z := flags / 64 % 2
    AD := flags / 32 % 2
    CD := flags / 16 % 2
    RCODE := flags % 16
    QDCOUNT := qdCount
    ANCOUNT := anCount
    NSCOUNT := nsCount
    ARCOUNT := arCount }

/-- `decodeQuestion`. -/
def decodeQuestion (m : List Nat) (startPosition : Nat) :
    Option (DnsQuestionSection × Nat) := do
  let (labels, nextPosition) ← decodeLabels m (labelFuel m) startPosition
  let qType ← getU16 m nextPosition
  let qClass ← getU16 m (nextPosition + 2)
  pure ({ QNAME := labels, QTYPE := qType, QCLASS := qClass }, nextPosition + 4)

/-- One TXT attribute block: the inner `for` loop of the TXT branch of
`decodeRdata`, which builds the attribute name until an `=` (code 61) and
takes the remaining bytes as the value. -/
def txtAttrGo (m : List Nat) (attrPosition txtLength : Nat) :
    Nat → JStr → JStr × TxtVal
  | i, key =>
    if txtLength < i then (key, .isTrue)
    else
      let c := idx m (attrPosition + i)
      if c = 61 then
        if txtLength < i + 1 then (key, .isNull)
        else (key, .bytes (subarray m (attrPosition + i + 1) (attrPosition + txtLength + 1)))
      else txtAttrGo m attrPosition txtLength (i + 1) (key ++ [c])
  termination_by i _ => txtLength + 1 - i

/-- JS object property assignment `attributes[key] = value`: update in
place if present, else append.  (The special numeric-key ordering of JS
objects is not modelled; DNS TXT keys are textual.) -/
def objSet (l : List (JStr × TxtVal)) (k : JStr) (v : TxtVal) : List (JStr × TxtVal) :=
  if l.any (fun p => p.1 = k) then l.map (fun p => if p.1 = k then (k, v) else p)
  else l ++ [(k, v)]

/-- The TXT attribute `while` loop over `rdlength` bytes. -/
def txtLoop (m : List Nat) (endPos : Nat) :
    Nat → Nat → List (JStr × TxtVal) → Option (List (JStr × TxtVal))
  | 0, _, _ => none
  | fuel + 1, attrPosition, attributes =>
    if attrPosition < endPos then do
      let txtLength ← getU8 m attrPosition
      let (key, value) := txtAttrGo m attrPosition txtLength 1 []
      txtLoop m endPos fuel (attrPosition + txtLength + 1) (objSet attributes key value)
    else
      pure attributes

/-! IPv6 formatting: `parts.join(":").replace(/(^|:)0(:0)*:0(:|$)/, "$1::$3")
.replace(/:{3,4}/, "::")`.  The two replacements are modelled directly as
leftmost-match rewrites with the greedy backtracking the JS engine performs. -/

/-- Count the maximal chain of `":0"` pairs starting at `p`. -/
def zeroPairChain (s : JStr) (p : Nat) : Nat → Nat
  | 0 => 0
  | fuel + 1 =>
    if s.get? p = some 58 ∧ s.get? (p + 1) = some 48 then
      zeroPairChain s (p + 2) fuel + 1
    else 0

/-- Try to match `(^|:)0(:0)*:0(:|$)` at position `l` using a given first
alternative for the group `(^|:)`.  Returns `(match end, g1, g3)`. -/
def zeroRunMatchAt (s : JStr) (l : Nat) (viaColon : Bool) :
    Option (Nat × JStr × JStr) := do
  let (g1, p) ←
    if viaColon then
      if s.get? l = some 58 then some (([58] : JStr), l + 1) else none
    else
      if l = 0 then some (([] : JStr), l) else none
  if s.get? p = some 48 then
    let kMax := zeroPairChain s (p + 1) (s.length + 1)
    -- greedy `(:0)*`: the largest t ∈ [1, kMax] whose trailing `(:|$)` fits
    let fits := fun t : Nat =>
      1 ≤ t ∧ t ≤ kMax ∧ (s.get? (p + 2 * t + 1) = some 58 ∨ s.length = p + 2 * t + 1)
    match (List.range (kMax + 1)).reverse.find? (fun t => decide (fits t)) with
    | some t =>
      if s.length = p + 2 * t + 1 then pure (p + 2 * t + 1, g1, ([] : JStr))
      else pure (p + 2 * t + 2, g1, ([58] : JStr))
    | none => none
  else none

/-- Leftmost match of `(^|:)0(:0)*:0(:|$)` (the `^` alternative is tried
before the `:` alternative at each position). -/
def zeroRunSearch (s : JStr) : Option (Nat × Nat × JStr × JStr) :=
  (List.range (s.length + 1)).findSome? (fun l =>
    match zeroRunMatchAt s l false with
    | some r => some (l, r)
    | none =>
      match zeroRunMatchAt s l true with
      | some r => some (l, r)
      | none => none)

/-- `.replace(/(^|:)0(:0)*:0(:|$)/, "$1::$3")`. -/
def replaceZeroRun (s : JStr) : JStr :=
  match zeroRunSearch s with
  | some (l, e, g1, g3) => s.take l ++ g1 ++ [58, 58] ++ g3 ++ s.drop e
  | none => s

/-- `.replace(/:{3,4}/, "::")`: replace the leftmost run of at least three
colons (greedily matching at most four of them) by two. -/
def replaceColons (s : JStr) : JStr :=
  match (List.range (s.length + 1)).find? (fun l =>
      decide (s.get? l = some 58 ∧ s.get? (l + 1) = some 58 ∧ s.get? (l + 2) = some 58)) with
  | some l =>
    let run4 := s.get? (l + 3) = some 58
    let matched := if run4 then 4 else 3
    s.take l ++ [58, 58] ++ s.drop (l + matched)
  | none => s

/-- The AAAA branch of `decodeRdata`: sixteen-bit groups in hexadecimal,
then the zero-run elision. -/
def decodeRdataAAAA (m : List Nat) (rdataPosition rdataLength : Nat) :
    Option JStr := do
  let count := (rdataLength + 1) / 2
  let parts ← (List.range count).mapM (fun k => getU16 m (rdataPosition + 2 * k))
  pure (replaceColons (replaceZeroRun (joinDots' (parts.map hexStr))))
where
  /-- `parts.join(":")`. -/
  joinDots' (ls : List JStr) : JStr :=
    match ls with
    | [] => []
    | l :: rest => rest.foldl (fun acc s => acc ++ [58] ++ s) l

/-- The NSEC window-block bitmap walk. -/
def nsecTypes (m : List Nat) (base : Nat) (windowBlockLength : Nat) : List Nat :=
  (List.range windowBlockLength).flatMap (fun i =>
    let mask := idx m (base + i)
    if mask = 0 then []
    else (List.range 8).filterMap (fun bit =>
      if mask / 2 ^ bit % 2 = 1 then some (8 * i + (7 - bit)) else none))

/-- `decodeRdata` (the authoritative second copy in `message_decode.ts`). -/
def decodeRdata (type : Nat) (m : List Nat) (rdataPosition rdataLength : Nat) :
    Option RData :=
  if type = 1 then
    -- A: four template-literal strings; note the stray trailing space the
    -- source leaves inside the third one.
    pure (.aStrs [
      decStr (idx m rdataPosition),
      decStr (idx m (rdataPosition + 1)),
      decStr (idx m (rdataPosition + 2)) ++ [32],
      decStr (idx m (rdataPosition + 3))])
  else if type = 12 then do
    let (labels, _) ← decodeLabels m (labelFuel m) rdataPosition
    pure (.labelSeq labels)
  else if type = 16 then
    if rdataLength = 1 then pure (.txt [])
    else do
      let attrs ← txtLoop m (rdataPosition + rdataLength) (rdataLength + 1) rdataPosition []
      pure (.txt attrs)
  else if type = 28 then do
    let s ← decodeRdataAAAA m rdataPosition rdataLength
    pure (.ipv6 s)
  else if type = 33 then do
    let priority ← getU16 m rdataPosition
    let weight ← getU16 m (rdataPosition + 2)
    let port ← getU16 m (rdataPosition + 4)
    let (target, _) ← decodeLabels m (labelFuel m) (rdataPosition + 6)
    pure (.srv priority weight port target)
  else if type = 47 then do
    let (labels, nextPosition) ← decodeLabels m (labelFuel m) rdataPosition
    let windowBlock ← getU8 m nextPosition
    let windowBlockLength ← getU8 m (nextPosition + 1)
    if windowBlock ≠ 0 ∨ 32 < windowBlockLength then
      pure (.bytes (subarray m rdataPosition (rdataPosition + rdataLength)))
    else
      pure (.nsec labels (nsecTypes m (nextPosition + 2) windowBlockLength))
  else
    pure (.bytes (subarray m rdataPosition (rdataPosition + rdataLength)))

/-- `decodeResourceRecord`. -/
def decodeResourceRecord (m : List Nat) (startPosition : Nat) :
    Option (ResourceRecord × Nat) := do
  let (labels, nextPosition) ← decodeLabels m (labelFuel m) startPosition
  let resourceType ← getU16 m nextPosition
  let resourceClass ← getU16 m (nextPosition + 2)
  let resourceTTL ← getU32 m (nextPosition + 4)
  let rdataLength ← getU16 m (nextPosition + 8)
  let decodedData ← decodeRdata resourceType m (nextPosition + 10) rdataLength
  pure ({
    NAME := labels
    TYPE := resourceType
    CLASS := resourceClass
    TTL := resourceTTL
    RDLENGTH := rdataLength
    RDATA := decodedData
    isUnique := false }, nextPosition + 10 + rdataLength)

/-- Decode `count` consecutive items with a position-threading decoder. -/
def decodeSection {α : Type} (decodeOne : Nat → Option (α × Nat)) :
    Nat → Nat → Option (List α × Nat)
  | 0, pos => pure ([], pos)
  | count + 1, pos => do
    let (result, nextPosition) ← decodeOne pos
    let (rest, finalPos) ← decodeSection decodeOne count nextPosition
    pure (result :: rest, finalPos)

/-- `decodeMessage`. -/
def decodeMessage (m : List Nat) : Option DnsMessage := do
  let header ← decodeHeader m
  let (question, p1) ← decodeSection (decodeQuestion m) header.QDCOUNT 12
  let (answer, p2) ← decodeSection (decodeResourceRecord m) header.ANCOUNT p1
  let (authority, p3) ← decodeSection (decodeResourceRecord m) header.NSCOUNT p2
  let (additional, _) ← decodeSection (decodeResourceRecord m) header.ARCOUNT p3
  pure { header, question, answer, authority, additional }

end DnsSd

namespace DnsSd

/-! ## Encoder (`src/decode/message_encode.ts`) -/

/-- A label sequence with an optional compression pointer
(`LabelSequence` in `types.ts`).  A pointer `(i1, i2)` names label `i2`
of earlier sequence `i1`. -/
structure LabelSequence where
  labels : List JStr
  pointer : Option (Nat × Nat)
deriving DecidableEq, Repr

/-- `LabelSeqOffsets`: label index ↦ byte offset. -/
abbrev LabelSeqOffsets := List (Nat × Nat)

/-- `ManyLabelSeqOffsets`: sequence index ↦ its label offsets. -/
abbrev ManyLabelSeqOffsets := List (Nat × LabelSeqOffsets)

/-- Assoc-list lookup for the JS record types above. -/
def alookup {α : Type} (l : List (Nat × α)) (k : Nat) : Option α :=
  (l.find? (fun p => p.1 = k)).map (·.2)

/-- `{...old, [k]: v}`. -/
def aset {α : Type} (l : List (Nat × α)) (k : Nat) (v : α) : List (Nat × α) :=
  (l.filter (fun p => p.1 ≠ k)) ++ [(k, v)]

/-- `encodeHeader`: two 16-bit words, then the four counts. -/
def encodeHeader (h : DnsMessageHeader) : List Nat :=
  let flags :=
    (h.QR * 32768 &&& 32768) + (h.OPCODE * 2048 &&& 30720) +
    (h.AA * 1024 &&& 1024) + (h.TC * 512 &&& 512) + (h.RD * 256 &&& 256) +
    (h.RA * 128 &&& 128) + (h.Z * 64 &&& 64) + (h.AD * 32 &&& 32) +
    (h.CD * 16 &&& 16) + (h.RCODE &&& 15)
  u16Bytes h.ID ++ u16Bytes flags ++ u16Bytes h.QDCOUNT ++ u16Bytes h.ANCOUNT ++
    u16Bytes h.NSCOUNT ++ u16Bytes h.ARCOUNT

/-- The longest common suffix length of two label sequences, capped by
the inner loop bound `prev.length` of `compressLabels`. -/
def commonSuffixLen (current prev : List JStr) : Nat :=
  go current.reverse prev.reverse 0
where
  go : List JStr → List JStr → Nat → Nat
    | c :: cs, p :: ps, acc => if c = p then go cs ps (acc + 1) else acc
    | _, _, acc => acc

/-- One step of `compressLabels`: try every earlier sequence from the
nearest backwards and compress against the first usable suffix match. -/
def compressOne (prevLabels : List (List JStr)) (compressed : List LabelSequence)
    (current : List JStr) : LabelSequence :=
  match (List.range prevLabels.length).reverse.findSome? (fun i =>
      match prevLabels.get? i, compressed.get? i with
      | some prev, some prevCompressed =>
        let k := commonSuffixLen current prev
        if k = 0 then none
        else
          let off := prev.length - k
          -- `labels[off]` must exist and be truthy (a non-empty string)
          match prevCompressed.labels.get? off with
          | some l =>
            if l = [] then none
            else some { labels := current.take (current.length - k),
                        pointer := some (i, off) }
          | none => none
      | _, _ => none) with
  | some seq => seq
  | none => { labels := current, pointer := none }

/-- `compressLabels`. -/
def compressLabels (labels : List (List JStr)) : List LabelSequence :=
  labels.foldl (fun acc current =>
    acc ++ [compressOne (labels.take acc.length) acc current]) []

/-- `encodeLabelSequence` (the compressing one): length-prefixed labels,
then either a two-byte pointer or the zero terminator.  Returns the bytes
and the relative offsets of the labels. -/
def encodeLabelSequence (seq : LabelSequence) (many : ManyLabelSeqOffsets) :
    List Nat × LabelSeqOffsets :=
  let rec go : List JStr → Nat → Nat → List Nat × LabelSeqOffsets
    | [], _, _ => ([], [])
    | l :: rest, i, position =>
      let bytes := u8 l.length :: l.map u8
      let (restBytes, restOffsets) := go rest (i + 1) (position + 1 + l.length)
      (bytes ++ restBytes, (i, position) :: restOffsets)
  let (labelBytes, offsets) := go seq.labels 0 0
  let tail :=
    match seq.pointer with
    | some (i1, i2) =>
      match alookup many i1 >>= fun offs => alookup offs i2 with
      | some offset => u16Bytes (49152 + offset)
      | none => [0, 0]  -- `0xC000 + undefined` is NaN; `setUint16` stores 0
    | none => [0]
  (labelBytes ++ tail, offsets)

/-- `offsetPositions`. -/
def offsetPositions (labelPositions : LabelSeqOffsets) (offset : Nat) :
    LabelSeqOffsets :=
  labelPositions.map (fun p => (p.1, p.2 + offset))

/-- `encodeQuestion`. -/
def encodeQuestion (question : DnsQuestionSection) (labelSequence : LabelSequence)
    (manyLabelOffsets : ManyLabelSeqOffsets) (questionOffset : Nat) :
    List Nat × LabelSeqOffsets :=
  let (labelBytes, newLabelOffsets) := encodeLabelSequence labelSequence manyLabelOffsets
  (labelBytes ++ u16Bytes question.QTYPE ++ u16Bytes question.QCLASS,
   offsetPositions newLabelOffsets questionOffset)

/-- `encodeResourceRecord` ("most" of a record: everything but RDATA). -/
def encodeResourceRecord (rr : ResourceRecord) (nameLabelSeq : LabelSequence)
    (manyLabelSeqOffsets : ManyLabelSeqOffsets) (offset : Nat) :
    List Nat × LabelSeqOffsets :=
  let (labelBytes, newLabelOffsets) := encodeLabelSequence nameLabelSeq manyLabelSeqOffsets
  let classWithCacheFlushBit := if rr.isUnique then rr.CLASS ||| 32768 else rr.CLASS
  (labelBytes ++ u16Bytes rr.TYPE ++ u16Bytes classWithCacheFlushBit ++
     u32Bytes rr.TTL ++ u16Bytes rr.RDLENGTH,
   offsetPositions newLabelOffsets offset)

/-- JS `Number` coercion of a string to a `Uint8Array` element: trimmed
decimal digits give the value modulo 256, anything else (including `NaN`)
stores 0. -/
def jsStrToUint8 (s : JStr) : Nat :=
  let t := (s.dropWhile (fun c => c = 32 ∨ c = 9 ∨ c = 10 ∨ c = 13)).reverse
    |>.dropWhile (fun c => c = 32 ∨ c = 9 ∨ c = 10 ∨ c = 13) |>.reverse
  if t ≠ [] ∧ t.all (fun c => 48 ≤ c ∧ c ≤ 57) then
    (t.foldl (fun acc c => acc * 10 + (c - 48)) 0) % 256
  else 0

/-- `encodeRdataA`: four bytes filled from `RDATA[0..3]`. -/
def encodeRdataA (rr : ResourceRecord) : List Nat :=
  match rr.RDATA with
  | .aNums quad => (List.range 4).map (fun i => u8 ((quad.get? i).getD 0))
  | .aStrs quad => (List.range 4).map (fun i => jsStrToUint8 ((quad.get? i).getD []))
  | _ => [0, 0, 0, 0]

/-- UTF-8 byte length of one code unit (`TextEncoder`; TXT keys here are
single byte values, so at most two UTF-8 bytes). -/
def utf8Len (c : Nat) : Nat := if c ≤ 127 then 1 else if c ≤ 2047 then 2 else 3

/-- `encodeRdataTXT`. -/
def encodeRdataTXT (attributes : List (JStr × TxtVal)) : List Nat :=
  if attributes = [] then [0]
  else attributes.flatMap (fun (key, value) =>
    let keyCharsByteLength := (key.map utf8Len).sum
    let attrLength :=
      match value with
      | .isTrue => keyCharsByteLength
      | .isNull => keyCharsByteLength + 1
      | .bytes bs => keyCharsByteLength + 1 + bs.length
    let ui8Length :=
      match value with
      | .isTrue => keyCharsByteLength
      | _ => keyCharsByteLength + 1
    -- an allocated zero array written through `setUint8`
    let writes := (u8 attrLength, 0) ::
      (key.enum.map (fun p => (u8 p.2, p.1 + 1))) ++
      (match value with
       | .isTrue => []
       | _ => [(61, key.length + 1)])
    let attrBytes := applyWrites (List.replicate (1 + ui8Length) 0) writes
    match value with
    | .bytes bs => attrBytes ++ bs
    | _ => attrBytes)
where
  /-- Apply `(value, position)` stores to a zero-initialised array,
  dropping out-of-range stores. -/
  applyWrites (arr : List Nat) (writes : List (Nat × Nat)) : List Nat :=
    writes.foldl (fun a w => if w.2 < a.length then a.set w.2 w.1 else a) arr

/-- `parseInt(s, 16)`: leading hexadecimal digits, or 0 via `NaN`. -/
def parseHex (s : JStr) : Nat :=
  let digits := s.takeWhile (fun c =>
    (48 ≤ c ∧ c ≤ 57) ∨ (97 ≤ c ∧ c ≤ 102) ∨ (65 ≤ c ∧ c ≤ 70))
  digits.foldl (fun acc c =>
    acc * 16 + (if c ≤ 57 then c - 48 else if c ≤ 70 then c - 55 else c - 87)) 0

/-- The part-fixing loop of `encodeRdataAAAA`: an empty group becomes "0"
and zero groups are spliced in after it until there are eight parts. -/
def fixParts : List JStr → Nat → List JStr
  | parts, i =>
    if h : parts.length ≤ i then parts
    else
      let part := (parts.get? i).getD []
      if part = [] then
        let withZero := parts.set i [48]
        let grown := withZero.take (i + 1) ++
          List.replicate (8 - withZero.length) [48] ++ withZero.drop (i + 1)
        fixParts grown (i + 1)
      else fixParts parts (i + 1)
  termination_by parts i => max parts.length 8 + 1 - i
  decreasing_by
    · simp only [List.length_append, List.length_take, List.length_drop,
        List.length_set, List.length_replicate]
      omega
    · omega

/-- `encodeRdataAAAA`: prepend "0", split on ":", repair empty groups,
then write eight 16-bit groups (extra groups would overflow the
16-byte buffer and are dropped like the `RangeError` they cause). -/
def encodeRdataAAAA (ipv6Addr : JStr) : List Nat :=
  let parts := ([48] ++ ipv6Addr).splitOnP (· = 58)
  let parts := fixParts parts 0
  (List.range 8).flatMap (fun i =>
    if i < parts.length then u16Bytes (parseHex ((parts.get? i).getD []))
    else [0, 0])

/-- `encodeRdataPTR` (compressing). -/
def encodeRdataPTR (labelSeq : LabelSequence) (many : ManyLabelSeqOffsets)
    (offset : Nat) : List Nat × LabelSeqOffsets :=
  let (bytes, newLabelOffsets) := encodeLabelSequence labelSeq many
  (bytes, offsetPositions newLabelOffsets offset)

/-- `encodeRdataSRV` (compressing): priority, weight, port, then the
(possibly compressed) label sequence. -/
def encodeRdataSRV (rr : ResourceRecord) (labelSeq : LabelSequence)
    (many : ManyLabelSeqOffsets) (offset : Nat) : List Nat × LabelSeqOffsets :=
  let (priority, weight, port) :=
    match rr.RDATA with
    | .srv p w pt _ => (p, w, pt)
    | _ => (0, 0, 0)
  let (labelBytes, newLabelOffsets) := encodeLabelSequence labelSeq many
  (u16Bytes priority ++ u16Bytes weight ++ u16Bytes port ++ labelBytes,
   offsetPositions newLabelOffsets (6 + offset))

/-- `masks[index] |= 1 << bit` with JS array auto-extension. -/
def setMaskBit (masks : List Nat) (index bit : Nat) : List Nat :=
  let padded := if masks.length ≤ index
    then masks ++ List.replicate (index + 1 - masks.length) 0 else masks
  padded.set index ((padded.get? index).getD 0 ||| 2 ^ bit)

/-- The NSEC type bitmap masks. -/
def nsecMasks (types : List Nat) : List Nat :=
  let maskLength := if types = [] then 0 else ((types.foldl max 0) + 7) / 8
  types.foldl (fun masks type => setMaskBit masks (type / 8) (7 - type % 8))
    (List.replicate maskLength 0)

/-- `encodeRdataNSEC` (the compressing copy in `message_encode.ts`).
Note the mask store at offset `i + 1`, which overwrites the bitmap length
byte — the responder's own copy of this function stores at `i + 2`. -/
def encodeRdataNSEC (rr : ResourceRecord) (labelSeq : LabelSequence)
    (many : ManyLabelSeqOffsets) (offset : Nat) : List Nat × LabelSeqOffsets :=
  let types := match rr.RDATA with | .nsec _ ts => ts | _ => []
  let maskLength := if types = [] then 0 else ((types.foldl max 0) + 7) / 8
  let masks := nsecMasks types
  let (labelBytes, newLabelOffsets) := encodeLabelSequence labelSeq many
  let maskBytes := (List.replicate (2 + maskLength) 0).set 1 (u8 maskLength)
  let maskBytes := (List.range masks.length).foldl (fun arr i =>
    if i + 1 < arr.length then arr.set (i + 1) (u8 ((masks.get? i).getD 0)) else arr)
    maskBytes
  (labelBytes ++ maskBytes, offsetPositions newLabelOffsets offset)

/-- `updateRdataLength`: walk past the (possibly pointer-terminated) name
to patch the RDLENGTH field. -/
def updateRdataLength (bytes : List Nat) (newLength : Nat) : List Nat :=
  let rec walk : Nat → Nat → Option Nat
    | 0, _ => none
    | fuel + 1, pos =>
      let length := idx bytes pos
      if length = 0 then some (pos + 1)
      else if 192 ≤ length then some (pos + 2)
      else walk fuel (pos + length + 1)
  match walk (bytes.length + 1) 0 with
  | some offset =>
    let two := u16Bytes newLength
    (bytes.set (offset + 8) (two.get? 0 |>.getD 0)).set (offset + 9) (two.get? 1 |>.getD 0)
  | none => bytes

/-- `extractResourceDataLabels`. -/
def extractResourceDataLabels (rr : ResourceRecord) : List (List JStr) :=
  if rr.TYPE = 12 then
    [rr.NAME, match rr.RDATA with | .labelSeq ls => ls | _ => []]
  else if rr.TYPE = 33 then
    [rr.NAME, match rr.RDATA with | .srv _ _ _ t => t | _ => []]
  else if rr.TYPE = 47 then
    [rr.NAME, match rr.RDATA with | .nsec n _ => n | _ => []]
  else [rr.NAME]

end DnsSd

namespace DnsSd

/-- The default for a missing compressed-labels entry (never reached on
inputs the JS code handles without crashing). -/
def emptySeq : LabelSequence := { labels := [], pointer := none }

/-- Encode one resource record (the body of the record loop of
`encodeMessage`): first everything but the RDATA, then the RDATA, whose
label sequences may point at the name just written; finally patch
RDLENGTH if compression changed the RDATA's size. -/
def encodeOneRR (compressedLabels : List LabelSequence) (rr : ResourceRecord)
    (many : ManyLabelSeqOffsets) (offset labelSeqIdx : Nat) :
    List Nat × ManyLabelSeqOffsets × Nat × Nat :=
  let (mostRRBytes, encodedLabelOffsets) :=
    encodeResourceRecord rr ((compressedLabels.get? labelSeqIdx).getD emptySeq)
      many offset
  let offset := offset + mostRRBytes.length
  let many := aset many labelSeqIdx encodedLabelOffsets
  let labelSeqIdx := labelSeqIdx + 1
  let (rdataBytes, many, labelSeqIdx) :=
    if rr.TYPE = 1 then
      (encodeRdataA rr, many, labelSeqIdx)
    else if rr.TYPE = 12 then
      let (bytes, offs) :=
        encodeRdataPTR ((compressedLabels.get? labelSeqIdx).getD emptySeq) many offset
      (bytes, aset many labelSeqIdx offs, labelSeqIdx + 1)
    else if rr.TYPE = 16 then
      (encodeRdataTXT (match rr.RDATA with | .txt a => a | _ => []), many, labelSeqIdx)
    else if rr.TYPE = 28 then
      (encodeRdataAAAA (match rr.RDATA with | .ipv6 s => s | _ => []), many, labelSeqIdx)
    else if rr.TYPE = 33 then
      let (bytes, offs) :=
        encodeRdataSRV rr ((compressedLabels.get? labelSeqIdx).getD emptySeq) many offset
      (bytes, aset many labelSeqIdx offs, labelSeqIdx + 1)
    else if rr.TYPE = 47 then
      let (bytes, offs) :=
        encodeRdataNSEC rr ((compressedLabels.get? labelSeqIdx).getD emptySeq) many offset
      (bytes, aset many labelSeqIdx offs, labelSeqIdx + 1)
    else
      (match rr.RDATA with | .bytes bs => bs | _ => [], many, labelSeqIdx)
  let mostRRBytes :=
    if rr.RDLENGTH ≠ rdataBytes.length then updateRdataLength mostRRBytes rdataBytes.length
    else mostRRBytes
  (mostRRBytes ++ rdataBytes, many, offset + rdataBytes.length, labelSeqIdx)

/-- `encodeMessage`. -/
def encodeMessage (msg : DnsMessage) : List Nat :=
  let header := encodeHeader msg.header
  let questionLabels := msg.question.map (·.QNAME)
  let answerLabels := msg.answer.flatMap extractResourceDataLabels
  let authorityLabels := msg.authority.flatMap extractResourceDataLabels
  let additionalLabels := msg.additional.flatMap extractResourceDataLabels
  let allLabels := questionLabels ++ answerLabels ++ authorityLabels ++ additionalLabels
  let compressedLabels := compressLabels allLabels
  -- question section
  let qinit : List Nat × ManyLabelSeqOffsets × Nat := ([], [], header.length)
  let (qbytes, many, offset) := msg.question.enum.foldl (fun acc iq =>
    let (bytesAcc, many, offset) := acc
    let (bytes, encodedLabelOffsets) :=
      encodeQuestion iq.2 ((compressedLabels.get? iq.1).getD emptySeq) many offset
    (bytesAcc ++ bytes, aset many iq.1 encodedLabelOffsets, offset + bytes.length))
    qinit
  -- resource records
  let allResourceRecords := msg.answer ++ msg.authority ++ msg.additional
  let rinit : List Nat × ManyLabelSeqOffsets × Nat × Nat :=
    ([], many, offset, msg.question.length)
  let (rrBytes, _, _, _) := allResourceRecords.foldl (fun acc rr =>
    let (bytesAcc, many, offset, labelSeqIdx) := acc
    let (bytes, many, offset, labelSeqIdx) :=
      encodeOneRR compressedLabels rr many offset labelSeqIdx
    (bytesAcc ++ bytes, many, offset, labelSeqIdx)) rinit
  header ++ qbytes ++ rrBytes

end DnsSd

namespace DnsSd

/-- A Lean string literal as a JS string. -/
def jstr (s : String) : JStr := s.toList.map Char.toNat

/-- `Set.add`: append unless already present. -/
def setAdd {α : Type} [DecidableEq α] (l : List α) (x : α) : List α :=
  if x ∈ l then l else l ++ [x]

/-! ## Responder (`src/mdns/responder.ts`) -/

/-- A record a responder proposes, together with the records that should
ride along in the additional section of answers using it. -/
structure RespondingRecord extends ResourceRecord where
  additional : List ResourceRecord := []
deriving DecidableEq, Repr

/-- The responder's uncompressed label-sequence encoder (the copy at the
bottom of `responder.ts`, used only for RDATA comparison). -/
def encodeLabelSequencePlain (labelSequence : List JStr) : List Nat :=
  labelSequence.flatMap (fun label => u8 label.length :: label.map u8) ++ [0]

/-- The responder's `encodeRdataPTR`. -/
def encodeRdataPTRResp (labelSeq : List JStr) : List Nat :=
  encodeLabelSequencePlain labelSeq

/-- The responder's `encodeRdataSRV`: priority, weight, port, then —
as written in the source — the label sequence of the record's `NAME`
(not of its `RDATA.target`). -/
def encodeRdataSRVResp (record : ResourceRecord) : List Nat :=
  let (priority, weight, port) :=
    match record.RDATA with
    | .srv p w pt _ => (p, w, pt)
    | _ => (0, 0, 0)
  u16Bytes priority ++ u16Bytes weight ++ u16Bytes port ++
    encodeLabelSequencePlain record.NAME

/-- The responder's `encodeRdataNSEC` (masks stored at `i + 2` here,
and the label bytes come from the record's `NAME`). -/
def encodeRdataNSECResp (record : ResourceRecord) : List Nat :=
  let types := match record.RDATA with | .nsec _ ts => ts | _ => []
  let maskLength := if types = [] then 0 else ((types.foldl max 0) + 7) / 8
  let masks := nsecMasks types
  let maskBytes := (List.replicate (2 + maskLength) 0).set 1 (u8 maskLength)
  let maskBytes := (List.range masks.length).foldl (fun arr i =>
    if i + 2 < arr.length then arr.set (i + 2) (u8 ((masks.get? i).getD 0)) else arr)
    maskBytes
  encodeLabelSequencePlain record.NAME ++ maskBytes

/-- The unsigned byte-by-byte comparison loop of `recordSort`; a strict
prefix orders first. -/
def byteCompare : List Nat → List Nat → Int
  | [], [] => 0
  | [], _ :: _ => -1
  | _ :: _, [] => 1
  | a :: as, b :: bs =>
    if a > b then 1 else if a < b then -1 else byteCompare as bs

/-- The re-encoded RDATA pair `recordSort` compares. -/
def recordSortRdata (a b : ResourceRecord) : List Nat × List Nat :=
  if a.TYPE = 1 ∧ b.TYPE = 1 then
    (encodeRdataA a, encodeRdataA b)
  else if a.TYPE = 12 ∧ b.TYPE = 12 then
    (encodeRdataPTRResp (match a.RDATA with | .labelSeq ls => ls | _ => []),
     encodeRdataPTRResp (match b.RDATA with | .labelSeq ls => ls | _ => []))
  else if a.TYPE = 16 ∧ b.TYPE = 16 then
    (encodeRdataTXT (match a.RDATA with | .txt at' => at' | _ => []),
     encodeRdataTXT (match b.RDATA with | .txt at' => at' | _ => []))
  else if a.TYPE = 28 ∧ b.TYPE = 28 then
    (encodeRdataAAAA (match a.RDATA with | .ipv6 s => s | _ => []),
     encodeRdataAAAA (match b.RDATA with | .ipv6 s => s | _ => []))
  else if a.TYPE = 33 ∧ b.TYPE = 33 then
    (encodeRdataSRVResp a, encodeRdataSRVResp b)
  else if a.TYPE = 47 ∧ b.TYPE = 47 then
    (encodeRdataNSECResp a, encodeRdataNSECResp b)
  else
    (match a.RDATA with | .bytes bs => bs | _ => [],
     match b.RDATA with | .bytes bs => bs | _ => [])

/-- `recordSort`: class, then type, then the re-encoded RDATA octets. -/
def recordSort (a b : ResourceRecord) : Int :=
  if a.CLASS < b.CLASS then -1
  else if b.CLASS < a.CLASS then 1
  else if a.TYPE < b.TYPE then -1
  else if b.TYPE < a.TYPE then 1
  else
    let (rdataA, rdataB) := recordSortRdata a b
    byteCompare rdataA rdataB

/-- `allAnswersAreUnique`. -/
def allAnswersAreUnique (answers : List ResourceRecord) : Bool :=
  answers.all (·.isUnique)

/-- The case-insensitive joined-name key used throughout the source
(`NAME.join(".").toUpperCase()`). -/
def nameKey (ls : List JStr) : JStr := upper (joinDots ls)

/-- `canAnswerAllQuestions`: the flag starts `true` and is cleared by any
(question, record) pair in which the record does not match the question —
so it demands that *every* record match *every* question. -/
def canAnswerAllQuestions (questions : List DnsQuestionSection)
    (answers : List ResourceRecord) : Bool :=
  questions.all (fun question => answers.all (fun record =>
    (record.TYPE = question.QTYPE ∨ question.QTYPE = 255) ∧
      nameKey record.NAME = nameKey question.QNAME))

/-- IP family of the multicast interface. -/
inductive IpFamily where
  | v4
  | v6
deriving DecidableEq, Repr

/-- The `heldTypesForNsec` map: name ↦ insertion-ordered set of types. -/
def heldAdd (m : List (JStr × List Nat)) (name : JStr) (ty : Nat) :
    List (JStr × List Nat) :=
  if m.any (fun p => p.1 = name) then
    m.map (fun p => if p.1 = name then (p.1, setAdd p.2 ty) else p)
  else m ++ [(name, [ty])]

/-- `answersFor`: matching records minus known-answer-suppressed ones,
plus synthesised NSEC records for names we own whose queried type we do
not hold (when our interface could know that). -/
def answersFor (questions : List DnsQuestionSection)
    (answers : List RespondingRecord) (knownAnswers : List ResourceRecord)
    (family : IpFamily) : List RespondingRecord :=
  let step := fun (acc : List RespondingRecord × List (JStr × List Nat))
      (question : DnsQuestionSection) =>
    answers.foldl (fun acc2 record =>
      let (valid, held) := acc2
      let isRightType := record.TYPE = question.QTYPE ∨ question.QTYPE = 255
      let isRightName := nameKey record.NAME = nameKey question.QNAME
      let valid :=
        if isRightType ∧ isRightName then
          let shouldSuppress := knownAnswers.any (fun knownAnswer =>
            nameKey record.NAME = nameKey knownAnswer.NAME ∧
            record.TYPE = knownAnswer.TYPE ∧
            2 * knownAnswer.TTL ≥ record.TTL)
          if shouldSuppress then valid else setAdd valid record
        else valid
      let unknowableByUs := (question.QTYPE = 28 ∧ family = .v4) ∨
        (question.QTYPE = 1 ∧ family = .v6)
      let held :=
        if isRightName ∧ ¬isRightType ∧ record.isUnique ∧ ¬unknowableByUs then
          heldAdd held (joinDots question.QNAME) record.TYPE
        else held
      (valid, held)) acc
  let (valid, held) := questions.foldl step ([], [])
  valid ++ held.map (fun p =>
    { NAME := splitDots p.1
      TYPE := 47
      CLASS := 1
      TTL := 120
      RDLENGTH := p.2.length
      RDATA := .nsec (splitDots p.1) p.2
      isUnique := false
      additional := [] })

/-- `alterTTLs`: 120 s for A/AAAA/SRV/PTR, 75 min for everything else. -/
def alterTTLs (records : List RespondingRecord) : List RespondingRecord :=
  records.map (fun record =>
    if record.TYPE ∈ [1, 28, 33, 33, 12] then { record with TTL := 120 }
    else { record with TTL := 60 * 75 })

/-- The state of an `AggregatingScheduledSend`. -/
structure SenderState where
  queuedAnswers : List RespondingRecord
  answersSentInLastSecond : List RespondingRecord
  /-- The absolute time of the pending scheduled send, if any. -/
  scheduledSend : Option ℚ
deriving DecidableEq

/-- A fresh sender. -/
def SenderState.initial : SenderState :=
  { queuedAnswers := [], answersSentInLastSecond := [], scheduledSend := none }

/-- Shared header of every response the sender emits. -/
def responseHeader (ancount arcount : Nat) : DnsMessageHeader :=
  { ID := 0, QR := 1, OPCODE := 0, AA := 1, TC := 0, RD := 0, RA := 0, Z := 0,
    AD := 0, CD := 0, RCODE := 0, QDCOUNT := 0, ANCOUNT := ancount,
    NSCOUNT := 0, ARCOUNT := arcount }

/-- Union of the `additional` lists of some records, in `Set` order. -/
def gatherAdditionals (records : List RespondingRecord) : List ResourceRecord :=
  records.foldl (fun acc record => record.additional.foldl setAdd acc) []

/-- `AggregatingScheduledSend.dispatchImmediately`. -/
def dispatchImmediately (st : SenderState) (answers : List RespondingRecord) :
    SenderState × Option DnsMessage :=
  let answersToSend := answers.foldl (fun acc record =>
    if record ∈ st.answersSentInLastSecond then acc else setAdd acc record) []
  if answersToSend = [] then (st, none)
  else
    let allAdditionals := gatherAdditionals answersToSend
    let response : DnsMessage :=
      { header := responseHeader answersToSend.length allAdditionals.length
        question := []
        answer := answersToSend.map (fun record =>
          { record.toResourceRecord with isUnique := record.TYPE ≠ 12 })
        authority := []
        additional := allAdditionals }
    ({ st with answersSentInLastSecond :=
        answers.foldl setAdd st.answersSentInLastSecond }, some response)

/-- `AggregatingScheduledSend.addAnswers`: queue answers not sent in the
last second and, if no send is pending, schedule one `20 + 100·r` ms from
now (`r` is the `Math.random()` draw in `[0, 1)`). -/
def addAnswers (st : SenderState) (records : List RespondingRecord)
    (now r : ℚ) : SenderState :=
  let queued := records.foldl (fun acc record =>
    if record ∈ st.answersSentInLastSecond then acc else setAdd acc record)
    st.queuedAnswers
  let scheduled :=
    match st.scheduledSend with
    | none => some (now + (r * (120 - 20) + 20))
    | some t => some t
  { st with queuedAnswers := queued, scheduledSend := scheduled }

/-- The inbound-query branch of `respond`'s message loop. -/
def handleQuery (proposed : List RespondingRecord) (family : IpFamily)
    (message : DnsMessage) (st : SenderState) (now r : ℚ) :
    SenderState × Option DnsMessage :=
  let answers := answersFor message.question proposed message.answer family
  let answersWithTTL := alterTTLs answers
  if answers.length > 0 ∧ message.authority.length = 0 then
    if canAnswerAllQuestions message.question (proposed.map (·.toResourceRecord)) ∧
        allAnswersAreUnique (answersWithTTL.map (·.toResourceRecord)) then
      dispatchImmediately st answersWithTTL
    else
      (addAnswers st answersWithTTL now r, none)
  else if answers.length > 0 ∧ message.authority.length > 0 then
    dispatchImmediately st answersWithTTL
  else (st, none)

end DnsSd

namespace DnsSd

/-- The loop of `desiredNamesFromRecords`, carrying the `seenNames` set. -/
def desiredNamesGo : List ResourceRecord → List JStr → List (List JStr)
  | [], _ => []
  | record :: rest, seenNames =>
    let key := joinDots record.NAME
    if key ∈ seenNames then desiredNamesGo rest (setAdd seenNames key)
    else record.NAME :: desiredNamesGo rest (setAdd seenNames key)

/-- `desiredNamesFromRecords`: first occurrence of each name, keyed by its
joined form. -/
def desiredNamesFromRecords (records : List ResourceRecord) : List (List JStr) :=
  desiredNamesGo records []

/-- The questions of a probe: QTYPE `ANY` for each desired name. -/
def probeQuestions (records : List ResourceRecord) : List DnsQuestionSection :=
  (desiredNamesFromRecords records).map (fun name =>
    { QNAME := name, QTYPE := 255, QCLASS := 1 })

/-- The probe message built by `probe`: a query carrying the questions and
all proposed records in the authority section. -/
def probeMessage (proposedRecords : List ResourceRecord) : DnsMessage :=
  let questions := probeQuestions proposedRecords
  { header := { ID := 0, QR := 0, OPCODE := 0, AA := 0, TC := 0, RD := 0,
                RA := 0, Z := 0, AD := 0, CD := 0, RCODE := 0,
                QDCOUNT := questions.length, ANCOUNT := 0,
                NSCOUNT := proposedRecords.length, ARCOUNT := 0 }
    question := questions
    answer := []
    authority := proposedRecords
    additional := [] }

/-- The send times of the three probes of an undisturbed probe phase:
the first after `untilFirstProbe` ms, then every 250 ms. -/
def probeTimes (untilFirstProbe : ℚ) : List ℚ :=
  [untilFirstProbe, untilFirstProbe + 250, untilFirstProbe + 500]

/-- The announcement message built by `announce`: the proposed records as
answers with the cache-flush bit set on every non-PTR record, no
authority, and the union of the attached additional records. -/
def announceMessage (proposed : List RespondingRecord) : DnsMessage :=
  let additionalRecords := gatherAdditionals proposed
  { header := { ID := 0, QR := 1, OPCODE := 0, AA := 1, TC := 0, RD := 0,
                RA := 0, Z := 0, AD := 0, CD := 0, RCODE := 0, QDCOUNT := 0,
                ANCOUNT := proposed.length, NSCOUNT := 0,
                ARCOUNT := additionalRecords.length }
    question := []
    answer := proposed.map (fun record =>
      { record.toResourceRecord with isUnique := record.TYPE ≠ 12 })
    authority := []
    additional := additionalRecords }

/-- The two announcement send times: immediately, then one second later. -/
def announceTimes (t : ℚ) : List ℚ := [t, t + 1000]

/-- The outbound trace of `respond` on a quiet network (no inbound
messages): an empty proposal is rejected before anything is sent;
otherwise three probes then two announcements (the third probe resolves
the probe phase, so announcing starts at `untilFirstProbe + 500`). -/
def respondTrace (proposed : List RespondingRecord) (untilFirstProbe : ℚ) :
    List (ℚ × DnsMessage) × Option JStr :=
  if proposed.length = 0 then
    ([], some (jstr "No proposed records were given for responding with"))
  else
    let pm := probeMessage (proposed.map (·.toResourceRecord))
    let am := announceMessage proposed
    ((probeTimes untilFirstProbe).map (fun t => (t, pm)) ++
       (announceTimes (untilFirstProbe + 500)).map (fun t => (t, am)),
     none)

/-! ## Querier cache (`src/mdns/query.ts`) -/

/-- `isEqualRecordName`: exact label-by-label equality. -/
def isEqualRecordName (a b : List JStr) : Bool := a = b

/-- The (name, type, class) key match of the cache-flush scan. -/
def matchKeyB (record prevRecord : ResourceRecord) : Bool :=
  isEqualRecordName record.NAME prevRecord.NAME ∧
    record.TYPE = prevRecord.TYPE ∧ record.CLASS = prevRecord.CLASS

/-- A cache event. -/
inductive QueryCacheEvent where
  | added (record : ResourceRecord)
  | expired (record : ResourceRecord)
  | flushed (record : ResourceRecord)
deriving DecidableEq, Repr

/-- The flush scan of `RecordCache.addRecord` over the stored records in
insertion order: a matching record with equal `recordSort` encoding stops
the whole insertion (the records scanned so far stay removed); any other
matching record is removed and reported flushed. -/
def flushScan (record : ResourceRecord) :
    List ResourceRecord → List ResourceRecord × List ResourceRecord × Bool
  | [] => ([], [], false)
  | prevRecord :: rest =>
    if matchKeyB record prevRecord then
      if recordSort record prevRecord = 0 then
        (prevRecord :: rest, [], true)
      else
        let s := flushScan record rest
        (s.1, prevRecord :: s.2.1, s.2.2)
    else
      let s := flushScan record rest
      (prevRecord :: s.1, s.2.1, s.2.2)

/-- `RecordCache.addRecord` (cache contents and emitted events; each
record received from the wire is a fresh object, so `Map.set` appends). -/
def addRecord (cache : List ResourceRecord) (record : ResourceRecord) :
    List ResourceRecord × List QueryCacheEvent :=
  if record.TTL = 0 then
    (cache ++ [record], [.added record])
  else
    if record.isUnique then
      let s := flushScan record cache
      if s.2.2 then
        (s.1, s.2.1.map .flushed)
      else
        (s.1 ++ [record], s.2.1.map .flushed ++ [.added record])
    else
      (cache ++ [record], [.added record])

/-- `RecordCache.removeRecord` (no event). -/
def removeRecord (cache : List ResourceRecord) (record : ResourceRecord) :
    List ResourceRecord :=
  cache.erase record

/-- `RecordCache.expireRecord`: remove, requery, emit `EXPIRED`. -/
def expireRecord (cache : List ResourceRecord) (record : ResourceRecord) :
    List ResourceRecord × List QueryCacheEvent :=
  (removeRecord cache record, [.expired record])

/-- An operation on the record cache. -/
inductive CacheOp where
  | add (record : ResourceRecord)
  | expire (record : ResourceRecord)
  | remove (record : ResourceRecord)
deriving DecidableEq, Repr

/-- Apply one operation to the cache. -/
def applyOp (cache : List ResourceRecord) : CacheOp → List ResourceRecord
  | .add record => (addRecord cache record).1
  | .expire record => (expireRecord cache record).1
  | .remove record => removeRecord cache record

/-- Run a sequence of cache operations from the empty cache. -/
def runOps (ops : List CacheOp) : List ResourceRecord :=
  ops.foldl applyOp []

/-- A continuous query's question. -/
structure MdnsQuestion where
  name : JStr
  recordType : Nat
deriving DecidableEq, Repr

/-- `RecordCache.knownAnswers`: cached records whose type equals a
question's type and whose joined name matches it case-insensitively. -/
def knownAnswers (cache : List ResourceRecord) (questions : List MdnsQuestion) :
    List ResourceRecord :=
  cache.foldl (fun acc record =>
    if questions.any (fun question =>
        record.TYPE = question.recordType ∧
        upper (joinDots record.NAME) = upper question.name) then
      setAdd acc record
    else acc) []

/-- `Query.getQuestions`: drop suppressed questions (clearing their flag)
and non-PTR questions already answered by the cache.  Returns the
surviving questions and the remaining suppressed set. -/
def getQuestions (questions suppressed : List MdnsQuestion)
    (cache : List ResourceRecord) : List MdnsQuestion × List MdnsQuestion :=
  match questions with
  | [] => ([], suppressed)
  | question :: rest =>
    if question ∈ suppressed then
      getQuestions rest (suppressed.erase question) cache
    else if question.recordType ≠ 12 ∧ knownAnswers cache [question] ≠ [] then
      getQuestions rest suppressed cache
    else
      let rest' := getQuestions rest suppressed cache
      (question :: rest'.1, rest'.2)

/-- `Query.sendQuery` with no explicit question list: filter the standing
questions, skip the send entirely if none survive, else emit a query with
known answers attached.  Returns the message (if any) and the updated
suppressed set. -/
def sendQuery (questions suppressed : List MdnsQuestion)
    (cache : List ResourceRecord) : Option DnsMessage × List MdnsQuestion :=
  let questionsToUse := (getQuestions questions suppressed cache).1
  let suppressed' := (getQuestions questions suppressed cache).2
  if questionsToUse = [] then (none, suppressed')
  else
    let knowns := knownAnswers cache questionsToUse
    (some {
      header := { ID := 0, QR := 0, OPCODE := 0, AA := 0, TC := 0, RD := 0,
                  RA := 0, Z := 0, AD := 0, CD := 0, RCODE := 0,
                  QDCOUNT := questionsToUse.length, ANCOUNT := knowns.length,
                  NSCOUNT := 0, ARCOUNT := 0 }
      question := questionsToUse.map (fun q =>
        { QNAME := splitDots q.name, QTYPE := q.recordType, QCLASS := 1 })
      answer := knowns
      authority := []
      additional := [] }, suppressed')

/-- `Query.scheduleInitialQuery`'s random delay: `20 + 100·r` ms. -/
def initialDelay (r : ℚ) : ℚ := r * (120 - 20) + 20

/-- The interval before query `n + 2` (`scheduleFurtherQueries`): one
second after the first query, then doubling, capped at one hour. -/
def intervalAfter : Nat → ℚ
  | 0 => 1000
  | n + 1 => min (intervalAfter n * 2) 3600000

/-- The absolute send time of the `n`-th scheduled query. -/
def queryTime (r : ℚ) : Nat → ℚ
  | 0 => initialDelay r
  | n + 1 => queryTime r n + intervalAfter n

end DnsSd

namespace DnsSd

/-! ## Advertiser (`src/dns_sd/advertise.ts`) -/

/-- A failure outcome of one `respond` call inside `advertise`'s loop. -/
inductive ProbeFailure where
  | nameTaken
  | simultaneousProbe
deriving DecidableEq, Repr

/-- The instance name used for a given `renameAttempts` value:
`` `${name} (${renameAttempts})` `` once a rename has happened. -/
def nameFor (base : JStr) (renameAttempts : Nat) : JStr :=
  if 1 < renameAttempts then
    base ++ jstr " (" ++ decStr renameAttempts ++ jstr ")"
  else base

/-- `attemptsInLastTenSeconds` at time `t`: failures whose 10 s removal
timer has not yet fired. -/
def countAt (takenTimes : List ℚ) (t : ℚ) : Nat :=
  (takenTimes.filter (fun ti => t < ti + 10000)).length

/-- The `advertise` retry loop, driven by a list of timed failures of the
underlying `respond` calls.  Produces the (name, start time) of every
attempt made, and whether the loop ended by rejecting with the
rename-exhaustion error.  A `nameTaken` failure bumps the rename counter
and records a sliding-window entry; a `simultaneousProbe` failure retries
after one second with everything unchanged. -/
def advRun (base : JStr) :
    Nat → List ℚ → ℚ → List (ProbeFailure × ℚ) → List (JStr × ℚ) × Bool
  | renameAttempts, _, start, [] =>
    ([(nameFor base renameAttempts, start)], false)
  | renameAttempts, takenTimes, start, (failure, t) :: rest =>
    let attempt := (nameFor base renameAttempts, start)
    match failure with
    | .simultaneousProbe =>
      let run := advRun base renameAttempts takenTimes (t + 1000) rest
      (attempt :: run.1, run.2)
    | .nameTaken =>
      let takenTimes' := takenTimes ++ [t]
      if countAt takenTimes' t ≤ 15 then
        let run := advRun base (renameAttempts + 1) takenTimes' t rest
        (attempt :: run.1, run.2)
      else
        ([attempt], true)

/-- `advertise` as a whole: the loop starts with `renameAttempts = 1` and
no recorded failures. -/
def advertiseModel (base : JStr) (start : ℚ)
    (outcomes : List (ProbeFailure × ℚ)) : List (JStr × ℚ) × Bool :=
  advRun base 1 [] start outcomes

/-- The times of the `nameTaken` failures in a list of outcomes. -/
def takenTimesIn (outcomes : List (ProbeFailure × ℚ)) : List ℚ :=
  (outcomes.filter (fun o => o.1 = .nameTaken)).map (·.2)

/-! ## Definitions taken from the specification's wording (for claims
that compare the code against the spec's own description). -/

/-- Modelled from the spec: the comparison octets the record order
prescribes for an SRV record — "most-significant-byte-first ... priority,
weight and port, followed by the *RDATA target* label sequence in wire
format".  (The source's `encodeRdataSRV` in `responder.ts` uses the
record's `NAME` instead.) -/
def claimSrvOctets (record : ResourceRecord) : List Nat :=
  match record.RDATA with
  | .srv priority weight port target =>
    u16Bytes priority ++ u16Bytes weight ++ u16Bytes port ++
      encodeLabelSequencePlain target
  | _ => []

/-- Modelled from the spec: "we can answer every question" — every
question has at least one matching proposed record. -/
def canAnswerEveryQuestionClaim (questions : List DnsQuestionSection)
    (records : List ResourceRecord) : Bool :=
  questions.all (fun question => records.any (fun record =>
    (record.TYPE = question.QTYPE ∨ question.QTYPE = 255) ∧
      nameKey record.NAME = nameKey question.QNAME))

end DnsSd

namespace DnsSd

/-! ## Theorems -/

/-- The failing input for the round-trip claim: a response carrying one
NSEC record for the name `aa` with next-domain `bb` and type list `[A]`,
in plain (uncompressed) wire format. -/
def c1FailingInput : List Nat :=
  [0, 0, 0, 0, 0, 0, 0, 1, 0, 0, 0, 0,
   2, 97, 97, 0, 0, 47, 0, 1, 0, 0, 0, 0, 0, 7,
   2, 98, 98, 0, 0, 1, 64]

/-- C1: the claim says that for every byte string `decodeMessage` accepts,
`decodeMessage (encodeMessage (decodeMessage m))` preserves header and
questions exactly and every record up to RDLENGTH — for NSEC records
among the others.  On `c1FailingInput` (accepted, one NSEC answer) the
header, question section, NAME, CLASS, TYPE and TTL are preserved but the
answer's RDATA is not: `encodeRdataNSEC` in `message_encode.ts` writes
the bitmap bytes at offset `i + 1`, overwriting the bitmap length byte,
so the re-encoded record decodes to opaque bytes instead of the original
NSEC RDATA. -/
theorem c1_roundtrip_fails_for_nsec :
    ∃ d d2 : DnsMessage,
      decodeMessage c1FailingInput = some d ∧
      decodeMessage (encodeMessage d) = some d2 ∧
      d2.header = d.header ∧
      d2.question = d.question ∧
      d.answer.length = 1 ∧ d2.answer.length = 1 ∧
      (∀ r2 ∈ d2.answer, ∀ r ∈ d.answer,
        r2.NAME = r.NAME ∧ r2.CLASS = r.CLASS ∧ r2.TYPE = r.TYPE ∧
          r2.TTL = r.TTL) ∧
      d2.answer.map (·.RDATA) ≠ d.answer.map (·.RDATA) := by
  refine ⟨_, _, rfl, rfl, ?_⟩
  decide

/-- The SRV pair on which `recordSort`'s RDATA re-encoding diverges from
the claim: equal class, type, priority, weight and port; `a`'s NAME is
`a` and its RDATA target `z`, `b`'s NAME is `z` and its RDATA target `a`. -/
def c2SrvA : ResourceRecord :=
  { NAME := [[97]], TYPE := 33, CLASS := 1, TTL := 120, RDLENGTH := 9,
    RDATA := .srv 0 0 0 [[122]], isUnique := true }

/-- See `c2SrvA`. -/
def c2SrvB : ResourceRecord :=
  { NAME := [[122]], TYPE := 33, CLASS := 1, TTL := 120, RDLENGTH := 9,
    RDATA := .srv 0 0 0 [[97]], isUnique := true }

/-- C2: the claim says that for two SRV records (equal class and type)
`recordSort` compares priority, weight, port and then the *RDATA target*
label sequence.  The octet sequences the claim prescribes order
`c2SrvA` *after* `c2SrvB` (its target `z` is larger), but the code
compares the records' `NAME`s instead and returns the opposite order:
`encodeRdataSRV` in `responder.ts` encodes `record.NAME`, not
`record.RDATA.target`. -/
theorem c2_recordSort_srv_uses_name_not_target :
    c2SrvA.CLASS = c2SrvB.CLASS ∧ c2SrvA.TYPE = c2SrvB.TYPE ∧
    byteCompare (claimSrvOctets c2SrvA) (claimSrvOctets c2SrvB) = 1 ∧
    recordSort c2SrvA c2SrvB = -1 := by
  decide

/-- Two unique SRV records with the same name, type, class, priority,
weight and port but different RDATA (targets `x` vs `y`). -/
def c5SrvOld : ResourceRecord :=
  { NAME := [[115]], TYPE := 33, CLASS := 1, TTL := 100, RDLENGTH := 9,
    RDATA := .srv 0 0 0 [[120]], isUnique := true }

/-- See `c5SrvOld`. -/
def c5SrvNew : ResourceRecord :=
  { NAME := [[115]], TYPE := 33, CLASS := 1, TTL := 100, RDLENGTH := 9,
    RDATA := .srv 0 0 0 [[121]], isUnique := true }

/-- C5: the claim says a unique record with non-zero TTL whose RDATA
differs from a cached record with equal (name, type, class) flushes the
cached record (emitting `Flushed` then `Added`).  The cache instead
compares RDATA through `recordSort`, whose SRV encoding ignores the
target (see C2), so `c5SrvNew` — same name/type/class, *different
RDATA* — is treated as identical: the old record is kept, the new one is
not inserted, and no event is emitted. -/
theorem c5_cache_keeps_stale_srv_record :
    c5SrvNew.isUnique = true ∧ c5SrvNew.TTL ≠ 0 ∧
    c5SrvOld.NAME = c5SrvNew.NAME ∧ c5SrvOld.TYPE = c5SrvNew.TYPE ∧
    c5SrvOld.CLASS = c5SrvNew.CLASS ∧ c5SrvOld.RDATA ≠ c5SrvNew.RDATA ∧
    addRecord [c5SrvOld] c5SrvNew = ([c5SrvOld], []) := by
  decide

/-- C10: calling `respond` with no proposed records rejects with the
dedicated error before probing: the outbound trace is empty. -/
theorem c10_empty_respond_rejects_without_sending (untilFirstProbe : ℚ) :
    respondTrace [] untilFirstProbe =
      ([], some (jstr "No proposed records were given for responding with")) := by
  rfl

end DnsSd

namespace DnsSd

/-- C8: with the `Math.random()` draw `r ∈ [0, 1)`, the first query is
scheduled 20–120 ms out, the second fires one second after the first,
and every further inter-query interval is double the previous one capped
at one hour (3 600 000 ms). -/
theorem c8_query_scheduling (r : ℚ) (h0 : 0 ≤ r) (h1 : r < 1) :
    20 ≤ queryTime r 0 ∧ queryTime r 0 < 120 ∧
    queryTime r 1 = queryTime r 0 + 1000 ∧
    ∀ n : Nat, queryTime r (n + 2) - queryTime r (n + 1) =
      min (2 * (queryTime r (n + 1) - queryTime r n)) 3600000 := by
  refine ⟨?_, ?_, ?_, ?_⟩
  · simp only [queryTime, initialDelay]
    nlinarith
  · simp only [queryTime, initialDelay]
    nlinarith
  · simp [queryTime, intervalAfter]
  · intro n
    have h2 : queryTime r (n + 2) - queryTime r (n + 1) = intervalAfter (n + 1) := by
      simp [queryTime]
    have h3 : queryTime r (n + 1) - queryTime r n = intervalAfter n := by
      simp [queryTime]
    rw [h2, h3, intervalAfter, mul_comm]

/-- Witness for C8 at the concrete draw `r = 1/2`. -/
theorem c8_query_scheduling_witness :
    (0 ≤ (1 / 2 : ℚ)) ∧ ((1 / 2 : ℚ) < 1) ∧
    (20 ≤ queryTime (1 / 2) 0 ∧ queryTime (1 / 2) 0 < 120 ∧
      queryTime (1 / 2) 1 = queryTime (1 / 2) 0 + 1000 ∧
      ∀ n : Nat, queryTime (1 / 2) (n + 2) - queryTime (1 / 2) (n + 1) =
        min (2 * (queryTime (1 / 2) (n + 1) - queryTime (1 / 2) n)) 3600000) :=
  ⟨by norm_num, by norm_num,
   c8_query_scheduling (1 / 2) (by norm_num) (by norm_num)⟩

end DnsSd

namespace DnsSd

/-- Membership in a JS-`Set`-style add. -/
theorem mem_setAdd {α : Type} [DecidableEq α] (l : List α) (a x : α) :
    x ∈ setAdd l a ↔ x ∈ l ∨ x = a := by
  unfold setAdd
  split
  · rename_i h
    constructor
    · exact Or.inl
    · rintro (h' | rfl)
      · exact h'
      · exact h
  · simp

/-- Every record's joined name is either already seen or represented by
one of the names `desiredNamesGo` keeps. -/
theorem desiredNamesGo_covers :
    ∀ (records : List ResourceRecord) (seen : List JStr) (r : ResourceRecord),
      r ∈ records →
      joinDots r.NAME ∈ seen ∨
        ∃ n ∈ desiredNamesGo records seen, joinDots n = joinDots r.NAME := by
  intro records
  induction records with
  | nil => intro seen r hr; cases hr
  | cons r0 rest ih =>
    intro seen r hr
    by_cases hk : joinDots r0.NAME ∈ seen
    · have hgo : desiredNamesGo (r0 :: rest) seen =
          desiredNamesGo rest (setAdd seen (joinDots r0.NAME)) := by
        simp [desiredNamesGo, hk]
      have hset : setAdd seen (joinDots r0.NAME) = seen := by
        simp [setAdd, hk]
      rw [hgo, hset]
      rcases List.mem_cons.mp hr with rfl | hr
      · exact Or.inl hk
      · exact ih seen r hr
    · have hgo : desiredNamesGo (r0 :: rest) seen =
          r0.NAME :: desiredNamesGo rest (setAdd seen (joinDots r0.NAME)) := by
        simp [desiredNamesGo, hk]
      rw [hgo]
      rcases List.mem_cons.mp hr with rfl | hr
      · exact Or.inr ⟨r.NAME, List.mem_cons_self _ _, rfl⟩
      · rcases ih (setAdd seen (joinDots r0.NAME)) r hr with hmem | ⟨n, hn, hjoin⟩
        · rcases (mem_setAdd _ _ _).mp hmem with hmem | heq
          · exact Or.inl hmem
          · exact Or.inr ⟨r0.NAME, List.mem_cons_self _ _, heq.symm⟩
        · exact Or.inr ⟨n, List.mem_cons_of_mem _ hn, hjoin⟩

/-- The names `desiredNamesGo` keeps have pairwise distinct joined forms,
none of them already seen. -/
theorem desiredNamesGo_pairwise :
    ∀ (records : List ResourceRecord) (seen : List JStr),
      (desiredNamesGo records seen).Pairwise
        (fun a b => joinDots a ≠ joinDots b) ∧
      ∀ n ∈ desiredNamesGo records seen, joinDots n ∉ seen := by
  intro records
  induction records with
  | nil => intro seen; exact ⟨List.Pairwise.nil, by intro n hn; cases hn⟩
  | cons r0 rest ih =>
    intro seen
    by_cases hk : joinDots r0.NAME ∈ seen
    · have hset : setAdd seen (joinDots r0.NAME) = seen := by
        simp [setAdd, hk]
      have hgo : desiredNamesGo (r0 :: rest) seen =
          desiredNamesGo rest seen := by
        simp [desiredNamesGo, hk, hset]
      rw [hgo]
      exact ih seen
    · have hgo : desiredNamesGo (r0 :: rest) seen =
          r0.NAME :: desiredNamesGo rest (setAdd seen (joinDots r0.NAME)) := by
        simp [desiredNamesGo, hk]
      obtain ⟨hpw, hnot⟩ := ih (setAdd seen (joinDots r0.NAME))
      rw [hgo]
      constructor
      · refine List.pairwise_cons.mpr ⟨?_, hpw⟩
        intro b hb heq
        exact hnot b hb ((mem_setAdd _ _ _).mpr (Or.inr heq.symm))
      · intro n hn
        rcases List.mem_cons.mp hn with rfl | hn
        · exact hk
        · intro hmem
          exact hnot n hn ((mem_setAdd _ _ _).mpr (Or.inl hmem))

/-- C3: for a non-empty proposal, the undisturbed responder run sends the
probe message three times at 250 ms intervals and then the announcement
twice, one second apart.  The probe is a query with one `ANY`/`IN`
question per distinct proposed name (every proposed record's name is
asked, and no two questions share a joined name) and carries all proposed
records in its authority section; the announcement carries the proposed
records as answers with `isUnique` forced true on every non-PTR record
and an empty authority section. -/
theorem c3_probe_and_announce (proposed : List RespondingRecord)
    (h : proposed ≠ []) (u : ℚ) :
    (respondTrace proposed u).1 =
      [(u, probeMessage (proposed.map (·.toResourceRecord))),
       (u + 250, probeMessage (proposed.map (·.toResourceRecord))),
       (u + 500, probeMessage (proposed.map (·.toResourceRecord))),
       (u + 500, announceMessage proposed),
       (u + 500 + 1000, announceMessage proposed)] ∧
    (probeMessage (proposed.map (·.toResourceRecord))).header.QR = 0 ∧
    (probeMessage (proposed.map (·.toResourceRecord))).question =
      (desiredNamesFromRecords (proposed.map (·.toResourceRecord))).map
        (fun n => { QNAME := n, QTYPE := 255, QCLASS := 1 }) ∧
    (∀ record ∈ proposed.map (·.toResourceRecord),
      ∃ q ∈ (probeMessage (proposed.map (·.toResourceRecord))).question,
        joinDots q.QNAME = joinDots record.NAME ∧ q.QTYPE = 255 ∧ q.QCLASS = 1) ∧
    (probeMessage (proposed.map (·.toResourceRecord))).question.Pairwise
      (fun q1 q2 => joinDots q1.QNAME ≠ joinDots q2.QNAME) ∧
    (probeMessage (proposed.map (·.toResourceRecord))).authority =
      proposed.map (·.toResourceRecord) ∧
    (probeMessage (proposed.map (·.toResourceRecord))).header.NSCOUNT =
      proposed.length ∧
    (announceMessage proposed).header.QR = 1 ∧
    (announceMessage proposed).answer = proposed.map (fun record =>
      { record.toResourceRecord with isUnique := record.TYPE ≠ 12 }) ∧
    (∀ a ∈ (announceMessage proposed).answer, a.TYPE ≠ 12 → a.isUnique = true) ∧
    (announceMessage proposed).authority = [] := by
  refine ⟨?_, rfl, rfl, ?_, ?_, rfl, ?_, rfl, rfl, ?_, rfl⟩
  · have hlen : proposed.length ≠ 0 := by
      simpa [List.length_eq_zero] using h
    simp [respondTrace, hlen, probeTimes, announceTimes]
  · intro record hrec
    rcases desiredNamesGo_covers (proposed.map (·.toResourceRecord)) [] record hrec
      with hmem | ⟨n, hn, hjoin⟩
    · cases hmem
    · refine ⟨{ QNAME := n, QTYPE := 255, QCLASS := 1 }, ?_, hjoin, rfl, rfl⟩
      simp only [probeMessage, probeQuestions, desiredNamesFromRecords]
      exact List.mem_map_of_mem _ hn
  · have hpw := (desiredNamesGo_pairwise (proposed.map (·.toResourceRecord)) []).1
    simp only [probeMessage, probeQuestions, desiredNamesFromRecords]
    exact List.pairwise_map.mpr hpw
  · simp [probeMessage, probeQuestions]
  · intro a ha hne
    simp only [announceMessage, List.mem_map] at ha
    obtain ⟨record, _, rfl⟩ := ha
    simp only at hne ⊢
    simpa using hne

/-- The one-record proposal used by the C3 witness. -/
def c3WitnessRecord : RespondingRecord :=
  { NAME := [[97]], TYPE := 1, CLASS := 1, TTL := 70, RDLENGTH := 4,
    RDATA := .aNums [5, 5, 5, 5], isUnique := true, additional := [] }

/-- Witness for C3 at a one-record proposal. -/
theorem c3_probe_and_announce_witness :
    ([c3WitnessRecord] ≠ []) ∧
    (respondTrace [c3WitnessRecord] 0).1.length = 5 := by
  constructor
  · decide
  · have := (c3_probe_and_announce [c3WitnessRecord] (by decide) 0).1
    rw [this]
    rfl

end DnsSd

namespace DnsSd

/-- The suppressed set only shrinks across a `getQuestions` pass. -/
theorem getQuestions_suppressed_subset :
    ∀ (questions suppressed : List MdnsQuestion) (cache : List ResourceRecord),
      ∀ x ∈ (getQuestions questions suppressed cache).2, x ∈ suppressed := by
  intro questions
  induction questions with
  | nil => intro s cache x hx; simpa [getQuestions] using hx
  | cons q rest ih =>
    intro s cache x hx
    by_cases hq : q ∈ s
    · rw [getQuestions, if_pos hq] at hx
      exact List.erase_subset _ _ (ih (s.erase q) cache x hx)
    · rw [getQuestions, if_neg hq] at hx
      split at hx
      · exact ih s cache x hx
      · exact ih s cache x hx

/-- After a `getQuestions` pass, none of the standing questions is still
suppressed: a suppression flag skips exactly one round. -/
theorem getQuestions_clears_flags :
    ∀ (questions suppressed : List MdnsQuestion) (cache : List ResourceRecord),
      suppressed.Nodup →
      ∀ q ∈ questions, q ∉ (getQuestions questions suppressed cache).2 := by
  intro questions
  induction questions with
  | nil => intro s cache _ q hq; cases hq
  | cons q0 rest ih =>
    intro s cache hnd q hq
    by_cases hq0 : q0 ∈ s
    · rw [getQuestions, if_pos hq0]
      rcases List.mem_cons.mp hq with rfl | hq
      · intro hmem
        have := getQuestions_suppressed_subset rest (s.erase q) cache q hmem
        rw [List.Nodup.mem_erase_iff hnd] at this
        exact this.1 rfl
      · exact ih (s.erase q0) cache (hnd.erase q0) q hq
    · rw [getQuestions, if_neg hq0]
      rcases List.mem_cons.mp hq with rfl | hq
      · split
        · intro hmem
          exact hq0 (getQuestions_suppressed_subset rest s cache q hmem)
        · intro hmem
          have hsub := getQuestions_suppressed_subset rest s cache q
          simp only [getQuestions] at hmem ⊢
          exact hq0 (hsub (by
            have h2 := congrArg Prod.snd
              (rfl : getQuestions rest s cache = getQuestions rest s cache)
            exact hmem))
      · split
        · exact ih s cache hnd q hq
        · have := ih s cache hnd q hq
          simpa [getQuestions] using this

/-- The surviving questions of a pass: not suppressed, and — unless they
are PTR questions — not already answered by the cache. -/
theorem getQuestions_valid_spec :
    ∀ (questions s₁ s₂ : List MdnsQuestion) (cache : List ResourceRecord),
      questions.Nodup →
      (∀ q ∈ questions, (q ∈ s₁ ↔ q ∈ s₂)) →
      (getQuestions questions s₁ cache).1 =
        questions.filter (fun q => decide (q ∉ s₂ ∧
          (q.recordType = 12 ∨ knownAnswers cache [q] = []))) := by
  intro questions
  induction questions with
  | nil => intro s₁ s₂ cache _ _; simp [getQuestions]
  | cons q rest ih =>
    intro s₁ s₂ cache hnd hiff
    have hq : q ∈ s₁ ↔ q ∈ s₂ := hiff q (List.mem_cons_self _ _)
    have hrest : ∀ q' ∈ rest, (q' ∈ s₁ ↔ q' ∈ s₂) := fun q' h =>
      hiff q' (List.mem_cons_of_mem _ h)
    have hndr : rest.Nodup := hnd.of_cons
    by_cases hmem : q ∈ s₁
    · have hmem₂ : q ∈ s₂ := hq.mp hmem
      rw [getQuestions, if_pos hmem]
      have hrest' : ∀ q' ∈ rest, (q' ∈ s₁.erase q ↔ q' ∈ s₂) := by
        intro q' h
        have hne : q' ≠ q := by
          intro h'
          subst h'
          exact (List.nodup_cons.mp hnd).1 h
        rw [List.mem_erase_of_ne hne]
        exact hrest q' h
      rw [ih (s₁.erase q) s₂ cache hndr hrest']
      simp [hmem₂]
    · have hmem₂ : q ∉ s₂ := fun h => hmem (hq.mpr h)
      rw [getQuestions, if_neg hmem]
      by_cases hdrop : q.recordType ≠ 12 ∧ knownAnswers cache [q] ≠ []
      · rw [if_pos hdrop]
        rw [ih s₁ s₂ cache hndr hrest]
        have : ¬ (q.recordType = 12 ∨ knownAnswers cache [q] = []) := by
          push_neg
          exact ⟨hdrop.1, hdrop.2⟩
        simp [hmem₂, this]
      · rw [if_neg hdrop]
        push_neg at hdrop
        rw [List.filter_cons]
        have hcond : (q.recordType = 12 ∨ knownAnswers cache [q] = []) := by
          by_cases h12 : q.recordType = 12
          · exact Or.inl h12
          · exact Or.inr (hdrop h12)
        have hdec : decide (q ∉ s₂ ∧
            (q.recordType = 12 ∨ knownAnswers cache [q] = [])) = true := by
          simp [hmem₂, hcond]
        rw [hdec]
        simp only [if_true]
        rw [ih s₁ s₂ cache hndr hrest]

/-- C7: before each scheduled send the querier drops suppressed questions
(clearing each flag so suppression lasts exactly one round), drops
non-PTR questions the cache can already answer while never dropping a PTR
question for that reason, and sends no packet at all when nothing
survives. -/
theorem c7_question_filtering (questions suppressed : List MdnsQuestion)
    (cache : List ResourceRecord)
    (h1 : questions.Nodup) (h2 : suppressed.Nodup) :
    (getQuestions questions suppressed cache).1 =
      questions.filter (fun q => decide (q ∉ suppressed ∧
        (q.recordType = 12 ∨ knownAnswers cache [q] = []))) ∧
    (∀ q ∈ questions, q ∉ (getQuestions questions suppressed cache).2) ∧
    (∀ q ∈ (getQuestions questions suppressed cache).2, q ∈ suppressed) ∧
    ((sendQuery questions suppressed cache).1 = none ↔
      (getQuestions questions suppressed cache).1 = []) := by
  refine ⟨getQuestions_valid_spec questions suppressed suppressed cache h1
      (fun _ _ => Iff.rfl),
    getQuestions_clears_flags questions suppressed cache h2,
    getQuestions_suppressed_subset questions suppressed cache, ?_⟩
  unfold sendQuery
  by_cases hempty : (getQuestions questions suppressed cache).1 = []
  · simp [hempty]
  · simp [hempty]

end DnsSd

namespace DnsSd

/-- Elements already accumulated survive a `setAdd` fold. -/
theorem mem_foldl_setAdd_of_mem_init {α : Type} [DecidableEq α] :
    ∀ (l acc : List α) (x : α), x ∈ acc → x ∈ l.foldl setAdd acc := by
  intro l
  induction l with
  | nil => intro acc x hx; simpa using hx
  | cons a l ih =>
    intro acc x hx
    exact ih (setAdd acc a) x ((mem_setAdd acc a x).mpr (Or.inl hx))

/-- Every folded-in element ends up in a `setAdd` fold. -/
theorem mem_foldl_setAdd_of_mem {α : Type} [DecidableEq α] :
    ∀ (l acc : List α) (x : α), x ∈ l → x ∈ l.foldl setAdd acc := by
  intro l
  induction l with
  | nil => intro acc x hx; cases hx
  | cons a l ih =>
    intro acc x hx
    rcases List.mem_cons.mp hx with rfl | hx
    · exact mem_foldl_setAdd_of_mem_init l (setAdd acc x) x
        ((mem_setAdd acc x x).mpr (Or.inr rfl))
    · exact ih (setAdd acc a) x hx

/-- With nothing sent in the last second, the sender's rate-limit filter
is the plain set fold. -/
theorem filterAdd_of_no_recent :
    (fun (acc : List RespondingRecord) record =>
      if record ∈ ([] : List RespondingRecord) then acc else setAdd acc record) =
      setAdd := by
  funext acc record
  simp

/-- The proposed records and query of the C4 counterexample: two unique A
records for the names `a` and `b`, and a query asking A for both names.
Each question is answered by exactly one of the records, so the spec's
"we can answer every question" holds, yet `canAnswerAllQuestions` is
false because record `a` does not match question `b`. -/
def c4ProposedA : RespondingRecord :=
  { NAME := [[97]], TYPE := 1, CLASS := 1, TTL := 120, RDLENGTH := 4,
    RDATA := .aNums [1, 1, 1, 1], isUnique := true, additional := [] }

/-- See `c4ProposedA`. -/
def c4ProposedB : RespondingRecord :=
  { NAME := [[98]], TYPE := 1, CLASS := 1, TTL := 120, RDLENGTH := 4,
    RDATA := .aNums [2, 2, 2, 2], isUnique := true, additional := [] }

/-- See `c4ProposedA`. -/
def c4Query : DnsMessage :=
  { header := { ID := 0, QR := 0, OPCODE := 0, AA := 0, TC := 0, RD := 0,
                RA := 0, Z := 0, AD := 0, CD := 0, RCODE := 0, QDCOUNT := 2,
                ANCOUNT := 0, NSCOUNT := 0, ARCOUNT := 0 }
    question := [{ QNAME := [[97]], QTYPE := 1, QCLASS := 1 },
                 { QNAME := [[98]], QTYPE := 1, QCLASS := 1 }]
    answer := []
    authority := []
    additional := [] }

/-- C4 counterexample: an inbound query (QR = 0, empty authority) whose
computed answers are non-empty and all unique, and whose every question
the proposed records can answer — yet the responder does *not* dispatch
immediately (it aggregates), because `canAnswerAllQuestions` demands that
every proposed record match every question. -/
theorem c4_counterexample_immediate_dispatch :
    c4Query.header.QR = 0 ∧ c4Query.authority = [] ∧
    answersFor c4Query.question [c4ProposedA, c4ProposedB] c4Query.answer .v4 ≠ [] ∧
    canAnswerEveryQuestionClaim c4Query.question
      ([c4ProposedA, c4ProposedB].map (·.toResourceRecord)) = true ∧
    allAnswersAreUnique ((alterTTLs (answersFor c4Query.question
      [c4ProposedA, c4ProposedB] c4Query.answer .v4)).map (·.toResourceRecord)) = true ∧
    (handleQuery [c4ProposedA, c4ProposedB] .v4 c4Query .initial 0 0).2 = none := by
  decide

/-- C4 (amended): for an inbound query with empty authority and non-empty
computed answer set, a sender with an empty rate-limit window dispatches
immediately exactly when *every* proposed record matches *every* question
and every computed answer is unique; anything dispatched contains every
computed answer.  In every other case the answers all join the queued
set, and a send is scheduled `20 + 100·r` ∈ [20, 120) ms out if none was
pending (a pending one is kept). -/
theorem c4_dispatch_vs_aggregate (proposed : List RespondingRecord)
    (family : IpFamily) (msg : DnsMessage) (st : SenderState) (now r : ℚ)
    (hauth : msg.authority = [])
    (hans : answersFor msg.question proposed msg.answer family ≠ [])
    (hsent : st.answersSentInLastSecond = [])
    (hr0 : 0 ≤ r) (hr1 : r < 1) :
    ((handleQuery proposed family msg st now r).2.isSome ↔
      (canAnswerAllQuestions msg.question (proposed.map (·.toResourceRecord)) = true ∧
       allAnswersAreUnique ((alterTTLs (answersFor msg.question proposed
         msg.answer family)).map (·.toResourceRecord)) = true)) ∧
    (∀ m, (handleQuery proposed family msg st now r).2 = some m →
      ∀ a ∈ alterTTLs (answersFor msg.question proposed msg.answer family),
        { a.toResourceRecord with isUnique := a.TYPE ≠ 12 } ∈ m.answer) ∧
    (¬ (canAnswerAllQuestions msg.question (proposed.map (·.toResourceRecord)) = true ∧
        allAnswersAreUnique ((alterTTLs (answersFor msg.question proposed
          msg.answer family)).map (·.toResourceRecord)) = true) →
      (∀ a ∈ alterTTLs (answersFor msg.question proposed msg.answer family),
        a ∈ (handleQuery proposed family msg st now r).1.queuedAnswers) ∧
      (st.scheduledSend = none →
        (handleQuery proposed family msg st now r).1.scheduledSend =
          some (now + (r * (120 - 20) + 20)) ∧
        20 ≤ r * (120 - 20) + 20 ∧ r * (120 - 20) + 20 < 120) ∧
      (∀ t, st.scheduledSend = some t →
        (handleQuery proposed family msg st now r).1.scheduledSend = some t)) := by
  have hlen : (answersFor msg.question proposed msg.answer family).length > 0 :=
    List.length_pos.mpr hans
  have hcond : (answersFor msg.question proposed msg.answer family).length > 0 ∧
      msg.authority.length = 0 := ⟨hlen, by rw [hauth]; rfl⟩
  have hwttl : alterTTLs (answersFor msg.question proposed msg.answer family) ≠ [] := by
    intro hempty
    have := congrArg List.length hempty
    simp only [alterTTLs, List.length_map, List.length_nil] at this
    omega
  by_cases hc : canAnswerAllQuestions msg.question (proposed.map (·.toResourceRecord)) = true ∧
      allAnswersAreUnique ((alterTTLs (answersFor msg.question proposed
        msg.answer family)).map (·.toResourceRecord)) = true
  · have hq : handleQuery proposed family msg st now r =
        dispatchImmediately st (alterTTLs (answersFor msg.question proposed
          msg.answer family)) := by
      unfold handleQuery
      rw [if_pos hcond, if_pos hc]
    rw [hq]
    unfold dispatchImmediately
    rw [hsent, filterAdd_of_no_recent]
    set answers := alterTTLs (answersFor msg.question proposed msg.answer family)
      with hanswers
    have hfold : answers.foldl setAdd [] ≠ [] := by
      obtain ⟨a, as, haeq⟩ := List.exists_cons_of_ne_nil hwttl
      intro hempty
      have : a ∈ answers.foldl setAdd [] :=
        mem_foldl_setAdd_of_mem answers [] a (by rw [haeq]; exact List.mem_cons_self _ _)
      rw [hempty] at this
      cases this
    rw [if_neg hfold]
    refine ⟨by simpa using hc, ?_, fun hnc => absurd hc hnc⟩
    intro m hm a ha
    have ham : a ∈ answers.foldl setAdd [] := mem_foldl_setAdd_of_mem answers [] a ha
    have := congrArg DnsMessage.answer (Option.some_injective _ hm).symm
    rw [this]
    exact List.mem_map_of_mem _ ham
  · have hq : handleQuery proposed family msg st now r =
        (addAnswers st (alterTTLs (answersFor msg.question proposed
          msg.answer family)) now r, none) := by
      unfold handleQuery
      rw [if_pos hcond, if_neg hc]
    rw [hq]
    refine ⟨by simpa using hc, ?_⟩
    refine ⟨(by intro m hm; cases hm), ?_⟩
    intro _
    unfold addAnswers
    rw [hsent, filterAdd_of_no_recent]
    refine ⟨?_, ?_, ?_⟩
    · intro a ha
      exact mem_foldl_setAdd_of_mem _ st.queuedAnswers a ha
    · intro hnone
      rw [hnone]
      refine ⟨rfl, by nlinarith, by nlinarith⟩
    · intro t ht
      rw [ht]

/-- Witness for C4 at a single-record, single-question query (the
condition holds and the response is dispatched immediately). -/
theorem c4_dispatch_vs_aggregate_witness :
    (c4Query.authority = [] ∧
     answersFor [{ QNAME := [[97]], QTYPE := 1, QCLASS := 1 }] [c4ProposedA] [] .v4 ≠ [] ∧
     (SenderState.initial.answersSentInLastSecond = []) ∧
     (0 : ℚ) ≤ 0 ∧ (0 : ℚ) < 1) ∧
    ((handleQuery [c4ProposedA] .v4
        { c4Query with question := [{ QNAME := [[97]], QTYPE := 1, QCLASS := 1 }] }
        .initial 0 0).2.isSome ↔
      (canAnswerAllQuestions [{ QNAME := [[97]], QTYPE := 1, QCLASS := 1 }]
        ([c4ProposedA].map (·.toResourceRecord)) = true ∧
       allAnswersAreUnique ((alterTTLs (answersFor
         [{ QNAME := [[97]], QTYPE := 1, QCLASS := 1 }] [c4ProposedA] []
           .v4)).map (·.toResourceRecord)) = true)) := by
  refine ⟨⟨rfl, by decide, rfl, le_refl 0, by norm_num⟩, ?_⟩
  exact (c4_dispatch_vs_aggregate [c4ProposedA] .v4
    { c4Query with question := [{ QNAME := [[97]], QTYPE := 1, QCLASS := 1 }] }
    .initial 0 0 rfl (by decide) rfl (le_refl 0) (by norm_num)).1

end DnsSd

namespace DnsSd

/-- Concrete questions for the C7 witness: one suppressed, one non-PTR
with a cached answer, one PTR with a cached answer. -/
def c7Questions : List MdnsQuestion :=
  [{ name := jstr "a.local", recordType := 1 },
   { name := jstr "b.local", recordType := 1 },
   { name := jstr "c.local", recordType := 12 }]

/-- See `c7Questions`. -/
def c7Suppressed : List MdnsQuestion := [{ name := jstr "a.local", recordType := 1 }]

/-- See `c7Questions`: the cache answers `b.local`/A and `c.local`/PTR. -/
def c7Cache : List ResourceRecord :=
  [{ NAME := [jstr "b", jstr "local"], TYPE := 1, CLASS := 1, TTL := 100,
     RDLENGTH := 4, RDATA := .aNums [5, 5, 5, 5], isUnique := true },
   { NAME := [jstr "c", jstr "local"], TYPE := 12, CLASS := 1, TTL := 100,
     RDLENGTH := 2, RDATA := .labelSeq [jstr "x"], isUnique := false }]

/-- Witness for C7 at `c7Questions`/`c7Suppressed`/`c7Cache`. -/
theorem c7_question_filtering_witness :
    (c7Questions.Nodup ∧ c7Suppressed.Nodup) ∧
    ((getQuestions c7Questions c7Suppressed c7Cache).1 =
      c7Questions.filter (fun q => decide (q ∉ c7Suppressed ∧
        (q.recordType = 12 ∨ knownAnswers c7Cache [q] = []))) ∧
    (∀ q ∈ c7Questions, q ∉ (getQuestions c7Questions c7Suppressed c7Cache).2) ∧
    (∀ q ∈ (getQuestions c7Questions c7Suppressed c7Cache).2, q ∈ c7Suppressed) ∧
    ((sendQuery c7Questions c7Suppressed c7Cache).1 = none ↔
      (getQuestions c7Questions c7Suppressed c7Cache).1 = [])) :=
  ⟨⟨by decide, by decide⟩,
   c7_question_filtering c7Questions c7Suppressed c7Cache (by decide) (by decide)⟩

/-- No two cached records may both be unique, share (name, type, class)
and disagree on RDATA. -/
def uniquePair (a b : ResourceRecord) : Prop :=
  a.isUnique = true → b.isUnique = true → matchKeyB a b = true → a.RDATA = b.RDATA

/-- The claimed cache invariant. -/
def cacheInvariant (cache : List ResourceRecord) : Prop :=
  cache.Pairwise uniquePair

/-- What `matchKeyB` decides. -/
theorem matchKeyB_eq_true_iff (a b : ResourceRecord) :
    matchKeyB a b = true ↔
      a.NAME = b.NAME ∧ a.TYPE = b.TYPE ∧ a.CLASS = b.CLASS := by
  simp [matchKeyB, isEqualRecordName]

/-- The flush scan only ever keeps a sublist of the cache. -/
theorem flushScan_sublist (record : ResourceRecord) :
    ∀ cache, (flushScan record cache).1.Sublist cache := by
  intro cache
  induction cache with
  | nil => simp [flushScan]
  | cons prev rest ih =>
    unfold flushScan
    by_cases hm : matchKeyB record prev = true
    · rw [if_pos hm]
      by_cases hs : recordSort record prev = 0
      · rw [if_pos hs]
      · rw [if_neg hs]
        exact ih.cons _
    · rw [if_neg hm]
      exact ih.cons₂ _

/-- Without an early return, the flush scan keeps exactly the records
whose (name, type, class) does not match the incoming one. -/
theorem flushScan_not_early (record : ResourceRecord) :
    ∀ cache, (flushScan record cache).2.2 = false →
      (flushScan record cache).1 =
        cache.filter (fun p => ! matchKeyB record p) := by
  intro cache
  induction cache with
  | nil => intro _; simp [flushScan]
  | cons prev rest ih =>
    intro hne
    unfold flushScan at hne ⊢
    by_cases hm : matchKeyB record prev = true
    · rw [if_pos hm] at hne ⊢
      by_cases hs : recordSort record prev = 0
      · rw [if_pos hs] at hne
        cases hne
      · rw [if_neg hs] at hne ⊢
        have hne' : (flushScan record rest).2.2 = false := hne
        show (flushScan record rest).1 = _
        rw [List.filter_cons_of_neg (by simp [hm]), ih hne']
    · rw [if_neg hm] at hne ⊢
      have hne' : (flushScan record rest).2.2 = false := hne
      have hmf : matchKeyB record prev = false := Bool.eq_false_iff.mpr hm
      show prev :: (flushScan record rest).1 = _
      rw [List.filter_cons_of_pos (by simp [hmf]), ih hne']

/-- `addRecord` with a non-zero-TTL record preserves the invariant. -/
theorem addRecord_preserves_invariant (cache : List ResourceRecord)
    (record : ResourceRecord) (ht : record.TTL ≠ 0)
    (h : cacheInvariant cache) : cacheInvariant (addRecord cache record).1 := by
  by_cases hu : record.isUnique = true
  · by_cases he : (flushScan record cache).2.2 = true
    · have heq : (addRecord cache record).1 = (flushScan record cache).1 := by
        simp [addRecord, ht, hu, he]
      rw [heq]
      exact h.sublist (flushScan_sublist record cache)
    · have heq : (addRecord cache record).1 =
          (flushScan record cache).1 ++ [record] := by
        simp [addRecord, ht, hu, he]
      rw [heq, flushScan_not_early record cache (by simpa using he)]
      rw [cacheInvariant, List.pairwise_append]
      refine ⟨h.sublist (List.filter_sublist _), List.pairwise_singleton _ _, ?_⟩
      intro x hx y hy
      have hy' : y = record := List.mem_singleton.mp hy
      intro _ _ hkey
      exfalso
      have hxf := (List.mem_filter.mp hx).2
      rw [hy'] at hkey
      obtain ⟨hn, hty, hc⟩ := (matchKeyB_eq_true_iff x record).mp hkey
      have hback : matchKeyB record x = true :=
        (matchKeyB_eq_true_iff record x).mpr ⟨hn.symm, hty.symm, hc.symm⟩
      simp [hback] at hxf
  · have heq : (addRecord cache record).1 = cache ++ [record] := by
      simp [addRecord, ht, hu]
    rw [heq, cacheInvariant, List.pairwise_append]
    refine ⟨h, List.pairwise_singleton _ _, ?_⟩
    intro x hx y hy
    have hy' : y = record := List.mem_singleton.mp hy
    intro _ hyu _
    rw [hy'] at hyu
    exact absurd hyu hu

/-- The restriction the counterexample forces: an `add` operation's
record has non-zero TTL. -/
def opTTLNonzero : CacheOp → Prop
  | .add record => record.TTL ≠ 0
  | .expire _ => True
  | .remove _ => True

instance : DecidablePred opTTLNonzero := fun op => by
  cases op <;> (unfold opTTLNonzero; infer_instance)

instance : DecidableRel uniquePair := fun a b => by
  unfold uniquePair; infer_instance

instance (cache : List ResourceRecord) : Decidable (cacheInvariant cache) := by
  unfold cacheInvariant; infer_instance

/-- C6 (amended): after any sequence of cache operations in which every
added record has non-zero TTL, the cache never holds two unique records
with equal (name, type, class) and different RDATA.  (Goodbye records —
TTL 0 — are inserted without the flush scan and can violate this; see the
counterexample.) -/
theorem c6_unique_records_never_conflict (ops : List CacheOp)
    (h : ∀ op ∈ ops, opTTLNonzero op) :
    cacheInvariant (runOps ops) := by
  suffices hgen : ∀ (ops : List CacheOp) (cache : List ResourceRecord),
      (∀ op ∈ ops, opTTLNonzero op) →
      cacheInvariant cache → cacheInvariant (ops.foldl applyOp cache) by
    exact hgen ops [] h List.Pairwise.nil
  intro ops
  induction ops with
  | nil => intro cache _ hinv; simpa using hinv
  | cons op rest ih =>
    intro cache hops hinv
    rw [List.foldl_cons]
    refine ih (applyOp cache op)
      (fun o ho => hops o (List.mem_cons_of_mem _ ho)) ?_
    cases op with
    | add r =>
      exact addRecord_preserves_invariant cache r
        (hops (.add r) (List.mem_cons_self _ _)) hinv
    | expire r =>
      have heq : applyOp cache (.expire r) = cache.erase r := rfl
      rw [heq]
      exact hinv.sublist (List.erase_sublist r cache)
    | remove r =>
      have heq : applyOp cache (.remove r) = cache.erase r := rfl
      rw [heq]
      exact hinv.sublist (List.erase_sublist r cache)

/-- The first record of the C6 counterexample. -/
def c6First : ResourceRecord :=
  { NAME := [[120]], TYPE := 1, CLASS := 1, TTL := 1000, RDLENGTH := 4,
    RDATA := .aNums [5, 5, 5, 5], isUnique := true }

/-- A unique goodbye record (TTL 0) for the same name, type and class
but different RDATA. -/
def c6Goodbye : ResourceRecord :=
  { NAME := [[120]], TYPE := 1, CLASS := 1, TTL := 0, RDLENGTH := 4,
    RDATA := .aNums [6, 6, 6, 6], isUnique := true }

/-- C6 counterexample: adding a unique record and then a unique goodbye
record (TTL 0, same name/type/class, different RDATA) leaves both in the
cache at once, violating the invariant as claimed — the TTL-0 path of
`addRecord` inserts without the flush scan. -/
theorem c6_counterexample_goodbye_breaks_invariant :
    ¬ cacheInvariant (runOps [.add c6First, .add c6Goodbye]) := by
  decide

/-- Witness for C6 at a two-operation run with non-zero TTLs. -/
theorem c6_unique_records_never_conflict_witness :
    (∀ op ∈ ([.add c6First, .expire c6First] : List CacheOp), opTTLNonzero op) ∧
    cacheInvariant (runOps [.add c6First, .expire c6First]) :=
  ⟨by decide, c6_unique_records_never_conflict
    [.add c6First, .expire c6First] (by decide)⟩

end DnsSd

namespace DnsSd

/-- `takenTimesIn` over a `nameTaken` failure. -/
theorem takenTimesIn_cons_taken (t : ℚ) (l : List (ProbeFailure × ℚ)) :
    takenTimesIn ((.nameTaken, t) :: l) = t :: takenTimesIn l := by
  simp [takenTimesIn]

/-- `takenTimesIn` over a `simultaneousProbe` failure. -/
theorem takenTimesIn_cons_sim (t : ℚ) (l : List (ProbeFailure × ℚ)) :
    takenTimesIn ((.simultaneousProbe, t) :: l) = takenTimesIn l := by
  simp [takenTimesIn]

/-- Every `advRun` attempt list starts with the attempt for the current
rename counter and start time. -/
theorem advRun_head (base : JStr) :
    ∀ (outcomes : List (ProbeFailure × ℚ)) (ra : Nat) (tt : List ℚ) (start : ℚ),
      (advRun base ra tt start outcomes).1.get? 0 =
        some (nameFor base ra, start) := by
  intro outcomes ra tt start
  cases outcomes with
  | nil => rfl
  | cons o rest =>
    rcases o with ⟨f, t⟩
    cases f with
    | nameTaken =>
      by_cases hc : countAt (tt ++ [t]) t ≤ 15 <;> simp [advRun, hc]
    | simultaneousProbe => rfl

/-- The name used by the `k`-th attempt: the base name suffixed with
`" (N)"` where `N - 1` counts the `nameTaken` failures seen so far. -/
theorem advRun_names (base : JStr) :
    ∀ (outcomes : List (ProbeFailure × ℚ)) (ra : Nat) (tt : List ℚ)
      (start : ℚ) (k : Nat) (nm : JStr) (tk : ℚ),
      (advRun base ra tt start outcomes).1.get? k = some (nm, tk) →
      nm = nameFor base (ra + (takenTimesIn (outcomes.take k)).length) := by
  intro outcomes
  induction outcomes with
  | nil =>
    intro ra tt start k nm tk h
    cases k with
    | zero =>
      simp only [advRun, List.get?_cons_zero, Option.some.injEq,
        Prod.mk.injEq] at h
      simp [← h.1, takenTimesIn]
    | succ k => simp [advRun] at h
  | cons o rest ih =>
    rcases o with ⟨f, t⟩
    intro ra tt start k nm tk h
    cases f with
    | simultaneousProbe =>
      cases k with
      | zero =>
        simp only [advRun, List.get?_cons_zero, Option.some.injEq,
          Prod.mk.injEq] at h
        simp [← h.1, takenTimesIn]
      | succ k =>
        simp only [advRun, List.get?_cons_succ] at h
        rw [ih ra tt (t + 1000) k nm tk h, List.take_succ_cons,
          takenTimesIn_cons_sim]
    | nameTaken =>
      by_cases hc : countAt (tt ++ [t]) t ≤ 15
      · cases k with
        | zero =>
          simp only [advRun, hc, if_true, List.get?_cons_zero,
            Option.some.injEq, Prod.mk.injEq] at h
          simp [← h.1, takenTimesIn]
        | succ k =>
          simp only [advRun, hc, if_true, List.get?_cons_succ] at h
          rw [ih (ra + 1) (tt ++ [t]) t k nm tk h, List.take_succ_cons,
            takenTimesIn_cons_taken, List.length_cons]
          congr 1
          omega
      · cases k with
        | zero =>
          simp only [advRun, hc, if_false, List.get?_cons_zero,
            Option.some.injEq, Prod.mk.injEq] at h
          simp [← h.1, takenTimesIn]
        | succ k =>
          simp only [advRun, hc, if_false] at h
          simp at h

/-- The run rejects exactly when some `nameTaken` failure pushes the
sliding ten-second count over 15. -/
theorem advRun_reject (base : JStr) :
    ∀ (outcomes : List (ProbeFailure × ℚ)) (ra : Nat) (tt : List ℚ)
      (start : ℚ),
      (advRun base ra tt start outcomes).2 = true ↔
      ∃ k t, outcomes.get? k = some (.nameTaken, t) ∧
        15 < countAt (tt ++ takenTimesIn (outcomes.take (k + 1))) t := by
  intro outcomes
  induction outcomes with
  | nil =>
    intro ra tt start
    simp [advRun]
  | cons o rest ih =>
    rcases o with ⟨f, t⟩
    intro ra tt start
    cases f with
    | simultaneousProbe =>
      have hl : (advRun base ra tt start ((.simultaneousProbe, t) :: rest)).2 =
          (advRun base ra tt (t + 1000) rest).2 := rfl
      rw [hl, ih ra tt (t + 1000)]
      constructor
      · rintro ⟨k, t', h1, h2⟩
        refine ⟨k + 1, t', h1, ?_⟩
        rw [List.take_succ_cons, takenTimesIn_cons_sim]
        exact h2
      · rintro ⟨k, t', h1, h2⟩
        cases k with
        | zero => simp at h1
        | succ k =>
          refine ⟨k, t', h1, ?_⟩
          rw [List.take_succ_cons, takenTimesIn_cons_sim] at h2
          exact h2
    | nameTaken =>
      by_cases hc : countAt (tt ++ [t]) t ≤ 15
      · have hl : (advRun base ra tt start ((.nameTaken, t) :: rest)).2 =
            (advRun base (ra + 1) (tt ++ [t]) t rest).2 := by
          simp [advRun, hc]
        rw [hl, ih (ra + 1) (tt ++ [t]) t]
        constructor
        · rintro ⟨k, t', h1, h2⟩
          refine ⟨k + 1, t', h1, ?_⟩
          rw [List.take_succ_cons, takenTimesIn_cons_taken]
          rw [List.append_assoc, List.singleton_append] at h2
          exact h2
        · rintro ⟨k, t', h1, h2⟩
          cases k with
          | zero =>
            exfalso
            have ht' : t = t' := by simpa using h1
            rw [List.take_succ_cons, List.take_zero,
              takenTimesIn_cons_taken] at h2
            have hnil : takenTimesIn ([] : List (ProbeFailure × ℚ)) = [] := rfl
            rw [hnil, ← ht'] at h2
            omega
          | succ k =>
            refine ⟨k, t', h1, ?_⟩
            rw [List.take_succ_cons, takenTimesIn_cons_taken] at h2
            rw [List.append_assoc, List.singleton_append]
            exact h2
      · have hl : (advRun base ra tt start ((.nameTaken, t) :: rest)).2 = true := by
          simp [advRun, hc]
        rw [hl]
        simp only [true_iff]
        refine ⟨0, t, rfl, ?_⟩
        rw [List.take_succ_cons, List.take_zero, takenTimesIn_cons_taken]
        have hnil : takenTimesIn ([] : List (ProbeFailure × ℚ)) = [] := rfl
        rw [hnil]
        omega

/-- A `simultaneousProbe` failure is retried one second later with the
same name. -/
theorem advRun_sim_retry (base : JStr) :
    ∀ (outcomes : List (ProbeFailure × ℚ)) (ra : Nat) (tt : List ℚ)
      (start : ℚ) (k : Nat) (t : ℚ),
      outcomes.get? k = some (.simultaneousProbe, t) →
      ∀ nm2 t2, (advRun base ra tt start outcomes).1.get? (k + 1) = some (nm2, t2) →
      ∃ nm1 t1, (advRun base ra tt start outcomes).1.get? k = some (nm1, t1) ∧
        nm2 = nm1 ∧ t2 = t + 1000 := by
  intro outcomes
  induction outcomes with
  | nil => intro ra tt start k t h; cases h
  | cons o rest ih =>
    rcases o with ⟨f, t0⟩
    intro ra tt start k t h nm2 t2 h2
    cases k with
    | zero =>
      simp only [List.get?_cons_zero, Option.some.injEq, Prod.mk.injEq] at h
      obtain ⟨hf, ht⟩ := h
      subst ht
      rw [hf] at h2 ⊢
      have hrun : (advRun base ra tt start ((.simultaneousProbe, t0) :: rest)).1 =
          (nameFor base ra, start) :: (advRun base ra tt (t0 + 1000) rest).1 := rfl
      rw [hrun] at h2 ⊢
      rw [List.get?_cons_succ, advRun_head base rest ra tt (t0 + 1000)] at h2
      have h3 := Option.some.inj h2
      exact ⟨nameFor base ra, start, rfl, (congrArg Prod.fst h3).symm,
        (congrArg Prod.snd h3).symm⟩
    | succ k =>
      rw [List.get?_cons_succ] at h
      cases f with
      | simultaneousProbe =>
        have hrun : (advRun base ra tt start ((.simultaneousProbe, t0) :: rest)).1 =
            (nameFor base ra, start) :: (advRun base ra tt (t0 + 1000) rest).1 := rfl
        rw [hrun] at h2 ⊢
        rw [List.get?_cons_succ] at h2 ⊢
        exact ih ra tt (t0 + 1000) k t h nm2 t2 h2
      | nameTaken =>
        by_cases hc : countAt (tt ++ [t0]) t0 ≤ 15
        · have hrun : (advRun base ra tt start ((.nameTaken, t0) :: rest)).1 =
              (nameFor base ra, start) ::
                (advRun base (ra + 1) (tt ++ [t0]) t0 rest).1 := by
            simp [advRun, hc]
          rw [hrun] at h2 ⊢
          rw [List.get?_cons_succ] at h2 ⊢
          exact ih (ra + 1) (tt ++ [t0]) t0 k t h nm2 t2 h2
        · have hrun : (advRun base ra tt start ((.nameTaken, t0) :: rest)).1 =
              [(nameFor base ra, start)] := by
            simp [advRun, hc]
          rw [hrun] at h2
          simp at h2

/-- C9: in the advertiser's retry loop, (i) the `k`-th attempt's instance
name is the base name when no `nameTaken` failure has occurred yet, and
otherwise the base name suffixed with `" (N)"` where `N` is one more than
the number of `nameTaken` failures so far (so `N` starts at 2 and
increments per failure); (ii) the task fails with the rename-exhaustion
error exactly when some `nameTaken` failure pushes the count of
`nameTaken` failures still inside their ten-second window over 15;
(iii) after a `simultaneousProbe` failure at time `t` the next attempt
starts at `t + 1000` with the same name. -/
theorem c9_advertise_rename_and_backoff (base : JStr) (start : ℚ)
    (outcomes : List (ProbeFailure × ℚ)) :
    (∀ k nm tk, (advertiseModel base start outcomes).1.get? k = some (nm, tk) →
      nm = nameFor base (1 + (takenTimesIn (outcomes.take k)).length)) ∧
    ((advertiseModel base start outcomes).2 = true ↔
      ∃ k t, outcomes.get? k = some (.nameTaken, t) ∧
        15 < countAt (takenTimesIn (outcomes.take (k + 1))) t) ∧
    (∀ k t, outcomes.get? k = some (.simultaneousProbe, t) →
      ∀ nm2 t2,
        (advertiseModel base start outcomes).1.get? (k + 1) = some (nm2, t2) →
        ∃ nm1 t1, (advertiseModel base start outcomes).1.get? k = some (nm1, t1) ∧
          nm2 = nm1 ∧ t2 = t + 1000) := by
  refine ⟨?_, ?_, ?_⟩
  · intro k nm tk h
    rw [advRun_names base outcomes 1 [] start k nm tk h, Nat.add_comm]
  · have := advRun_reject base outcomes 1 [] start
    simpa using this
  · intro k t h nm2 t2 h2
    exact advRun_sim_retry base outcomes 1 [] start k t h nm2 t2 h2

/-- Witness for C9 at the concrete run "one `nameTaken` failure at t = 0,
then a `simultaneousProbe` at t = 50": the instantiated
rejection-characterisation of the claim's theorem. -/
theorem c9_advertise_witness :
    (advertiseModel (jstr "svc") 0
        [(.nameTaken, 0), (.simultaneousProbe, 50)]).2 = true ↔
      ∃ k t, ([(.nameTaken, 0), (.simultaneousProbe, 50)] :
          List (ProbeFailure × ℚ)).get? k = some (.nameTaken, t) ∧
        15 < countAt (takenTimesIn
          (([(.nameTaken, 0), (.simultaneousProbe, 50)] :
            List (ProbeFailure × ℚ)).take (k + 1))) t :=
  (c9_advertise_rename_and_backoff (jstr "svc") 0
    [(.nameTaken, 0), (.simultaneousProbe, 50)]).2.1

end DnsSd

namespace DnsSd

/-- Witness for C10 at `untilFirstProbe = 0`. -/
theorem c10_empty_respond_witness :
    respondTrace [] 0 =
      ([], some (jstr "No proposed records were given for responding with")) :=
  c10_empty_respond_rejects_without_sending 0

end DnsSd
